import Mathlib

/-!
# Finit service supervisor: the service state machine of `src/service.c`

A shallow embedding of the per-service state machine (`service_step`), the
supervision primitives it calls (`service_start`, `service_stop`,
`service_restart`), the child reaper (`service_monitor`) and the two-phase
runlevel / reload coordinator (`service_runlevel`, `service_reload_dynamic`,
`service_teardown_finish`).

Every system call the C code makes that is visible from outside the process
(`fork`, `kill`, the plugin hooks, shutdown and tty hand-over) is appended to
a chronological trace, so that statements such as "no fork happened" or "the
hooks ran before the first fork" are statements about that trace.
-/

namespace Finit

/-! ## Data model -/

/-- Service types, `svc_type_t` of `src/svc.h`, in declaration order. -/
inductive svc_type_t where
  | SVC_TYPE_FREE
  | SVC_TYPE_SERVICE
  | SVC_TYPE_TASK
  | SVC_TYPE_RUN
  | SVC_TYPE_INETD
  deriving DecidableEq, Repr

/-- Numeric value of a `svc_type_t` enumerator (C enumerators count from 0). -/
def svc_type_t.toNat : svc_type_t → Nat
  | .SVC_TYPE_FREE => 0
  | .SVC_TYPE_SERVICE => 1
  | .SVC_TYPE_TASK => 2
  | .SVC_TYPE_RUN => 3
  | .SVC_TYPE_INETD => 4

/-- Modelled from the spec: the `svc_state_t` declaration that `service.c` is
compiled against is missing (`src/svc.h` declares an older set of states
without `SVC_READY_STATE`, `SVC_STOPPING_STATE`, `SVC_DONE_STATE`).  The seven
states are those of the data model: Halted, Ready, Running, Stopping, Waiting,
Paused, Done. -/
inductive svc_state_t where
  | SVC_HALTED_STATE
  | SVC_READY_STATE
  | SVC_RUNNING_STATE
  | SVC_STOPPING_STATE
  | SVC_WAITING_STATE
  | SVC_PAUSED_STATE
  | SVC_DONE_STATE
  deriving DecidableEq, Repr

/-- Modelled from the spec: the type of the `block` field of a record is
missing from `src/svc.h`.  The reasons are those the data model lists: None,
Missing, Crashing, User, BusyCondition. -/
inductive svc_block_t where
  | SVC_BLOCK_NONE
  | SVC_BLOCK_MISSING
  | SVC_BLOCK_CRASHING
  | SVC_BLOCK_USER
  | SVC_BLOCK_BUSY
  deriving DecidableEq, Repr

/-- Tri-state of a condition, `enum cond_state` of `src/cond.h`. -/
inductive cond_state where
  | COND_OFF
  | COND_FLUX
  | COND_ON
  deriving DecidableEq, Repr

/-- Numeric value of a `cond_state` enumerator, used by `cond < COND_ON`. -/
def cond_state.toNat : cond_state → Nat
  | .COND_OFF => 0
  | .COND_FLUX => 1
  | .COND_ON => 2

/-- Socket type of an inetd service (`svc->inetd.type`). -/
inductive sock_type_t where
  | SOCK_STREAM
  | SOCK_DGRAM
  deriving DecidableEq, Repr

/-- The signals the supervisor sends: to its children with `kill`, and
`SIGUSR1` / `SIGUSR2` as the argument of `do_shutdown`. -/
inductive signal_t where
  | SIGTERM
  | SIGHUP
  | SIGSTOP
  | SIGCONT
  | SIGUSR1
  | SIGUSR2
  deriving DecidableEq, Repr

/-- Hook points run through `plugin_run_hooks`. -/
inductive hook_t where
  | HOOK_RUNLEVEL_CHANGE
  | HOOK_SVC_RECONF
  deriving DecidableEq, Repr

/-- A service record, `svc_t` of `src/svc.h` together with the `block` field
used by `service.c`.  `restart_counter` is read and written by `service_step`
through an `int *`, hence an integer here; `sighup`, and `inetd_cmd` (whether
`svc->inetd.cmd` is a non-null plugin callback) are only ever tested for
truth.  `has_cb` says whether the plugin callback pointer `cb` is set. -/
structure svc_t where
  job : Int
  id : Int
  pid : Int
  state : svc_state_t
  type : svc_type_t
  mtime : Int
  dirty : Int
  runlevels : Nat
  sighup : Bool
  cond : String
  restart_counter : Int
  block : svc_block_t
  inetd_cmd : Bool
  inetd_type : sock_type_t
  username : String
  group : String
  cmd : String
  args : List String
  desc : String
  dynamic : Int
  dynamic_stop : Int
  has_cb : Bool
  deriving DecidableEq, Repr

/-- What the process does that is visible from outside, in the order of the
calls in `service.c`. -/
inductive event where
  | fork (pid : Int)
  | kill (pid : Int) (sig : signal_t)
  | hooks (h : hook_t)
  | shutdown (sig : signal_t)
  | nologin (present : Bool)
  | tty_runlevel (level : Int)
  deriving DecidableEq, Repr

/-- The part of the outside world `service_step` writes: the chronological
trace of events and the number of times `service_start` was entered. -/
structure world where
  trace : List event
  starts : Nat
  deriving DecidableEq, Repr

/-- What the operating system answers to one passage through the
accept / fork part of `service_start`. -/
structure start_outcome where
  accept_ok : Bool
  allowed : Bool
  fork_pid : Int
  deriving DecidableEq, Repr

/-- Everything one `service_step` call reads from outside the record: the
global `runlevel`, the aggregate of a condition expression (`cond_get_agg`,
whose definition is not part of `service.c`), file existence, whether finit
itself is stopped, the answer of the system to the n-th `service_start`, and
the return value of `kill`. -/
structure ctx where
  runlevel : Int
  cond_get_agg : String → cond_state
  fexist : String → Bool
  sig_stopped : Bool
  start : Nat → start_outcome
  kill : Int → signal_t → Int

/-- The constant `RESPAWN_MAX` of `service.c`. -/
def RESPAWN_MAX : Int := 10

/-- Modelled from the spec: the `ISSET(word, bit)` macro of libite is missing;
it tests bit `bit` of the runlevel bitmask `word`. -/
def ISSET (word : Nat) (bit : Int) : Bool :=
  decide (0 ≤ bit) && word.testBit bit.toNat

def svc_in_runlevel (svc : svc_t) (runlevel : Int) : Bool :=
  ISSET svc.runlevels runlevel

def svc_is_changed (svc : svc_t) : Bool := decide (svc.dirty ≠ 0)

def svc_is_removed (svc : svc_t) : Bool := decide (svc.dirty = -1)

def svc_is_inetd (svc : svc_t) : Bool := decide (svc.type = .SVC_TYPE_INETD)

def svc_is_daemon (svc : svc_t) : Bool := decide (svc.type = .SVC_TYPE_SERVICE)

/-! ## Supervision primitives -/

/-- The function `service_enabled`: allowed in the current runlevel and not
blocked. -/
def service_enabled (c : ctx) (svc : svc_t) : Bool :=
  if !svc_in_runlevel svc c.runlevel || decide (svc.block ≠ .SVC_BLOCK_NONE) then false
  else true

/-- The function `is_norespawn`. -/
def is_norespawn (c : ctx) : Bool :=
  c.sig_stopped || c.fexist "/mnt/norespawn" || c.fexist "/tmp/norespawn"

/-- The function `service_start`, seen from the parent process: returns the
record, the world and the C return value.  The child branch (`pid == 0`) never
returns into the supervisor. -/
def service_start (c : ctx) (svc : svc_t) (w : world) : svc_t × world × Int :=
  let o := c.start w.starts
  let w := { w with starts := w.starts + 1 }
  if !c.fexist svc.cmd && !svc.inetd_cmd then
    ({ svc with block := .SVC_BLOCK_MISSING }, w, 1)
  else if is_norespawn c then
    (svc, w, 1)
  else if svc_is_inetd svc && decide (svc.inetd_type = .SOCK_STREAM) && !o.accept_ok then
    (svc, w, 1)
  else if svc_is_inetd svc && !o.allowed then
    (svc, w, 1)
  else
    ({ svc with pid := o.fork_pid }, { w with trace := w.trace ++ [event.fork o.fork_pid] }, 0)

/-- The function `service_stop`. -/
def service_stop (c : ctx) (svc : svc_t) (w : world) : svc_t × world × Int :=
  if svc.pid ≤ 1 then
    (svc, w, 1)
  else if svc.type ≠ .SVC_TYPE_SERVICE then
    (svc, w, 0)
  else
    (svc, { w with trace := w.trace ++ [event.kill svc.pid .SIGTERM] }, c.kill svc.pid .SIGTERM)

/-- The function `service_restart`. -/
def service_restart (c : ctx) (svc : svc_t) (w : world) : svc_t × world × Int :=
  if is_norespawn c then
    (svc, w, 1)
  else if !svc.sighup then
    (svc, w, 1)
  else if svc.pid ≤ 1 then
    ({ svc with pid := 0 }, w, 1)
  else
    (svc, { w with trace := w.trace ++ [event.kill svc.pid .SIGHUP] }, c.kill svc.pid .SIGHUP)

/-- The call `kill(svc->pid, sig)` made directly by `service_step`. -/
def send_kill (svc : svc_t) (sig : signal_t) (w : world) : world :=
  { w with trace := w.trace ++ [event.kill svc.pid sig] }

/-! ## The state machine -/

/-- One pass through the `switch` of `service_step`, from the label `restart`
to the test `*state != old_state`. -/
def service_step_once (c : ctx) (svc : svc_t) (w : world) : svc_t × world :=
  let enabled := service_enabled c svc
  match svc.state with
  | .SVC_HALTED_STATE =>
    let svc := { svc with restart_counter := 0 }
    if enabled then ({ svc with state := .SVC_READY_STATE }, w) else (svc, w)
  | .SVC_DONE_STATE =>
    if svc_is_changed svc then ({ svc with state := .SVC_HALTED_STATE }, w) else (svc, w)
  | .SVC_STOPPING_STATE =>
    if svc.pid = 0 then ({ svc with state := .SVC_HALTED_STATE }, w) else (svc, w)
  | .SVC_READY_STATE =>
    if !enabled then
      ({ svc with state := .SVC_HALTED_STATE }, w)
    else if c.cond_get_agg svc.cond = .COND_ON then
      if svc.restart_counter ≥ RESPAWN_MAX then
        ({ svc with block := .SVC_BLOCK_CRASHING, state := .SVC_HALTED_STATE }, w)
      else
        let r := service_start c svc w
        if r.2.2 ≠ 0 ∨ r.1.pid = 0 then
          ({ r.1 with restart_counter := r.1.restart_counter + 1 }, r.2.1)
        else
          let svc := { r.1 with dirty := 0 }
          match svc.type with
          | .SVC_TYPE_SERVICE => ({ svc with state := .SVC_RUNNING_STATE }, r.2.1)
          | .SVC_TYPE_INETD => ({ svc with state := .SVC_STOPPING_STATE }, r.2.1)
          | .SVC_TYPE_TASK => ({ svc with state := .SVC_STOPPING_STATE }, r.2.1)
          | .SVC_TYPE_RUN => ({ svc with state := .SVC_DONE_STATE }, r.2.1)
          | .SVC_TYPE_FREE => (svc, r.2.1)
    else
      (svc, w)
  | .SVC_RUNNING_STATE =>
    if !enabled then
      let r := service_stop c svc w
      ({ r.1 with state := .SVC_STOPPING_STATE }, r.2.1)
    else if svc.pid = 0 then
      ({ svc with restart_counter := svc.restart_counter + 1, state := .SVC_READY_STATE }, w)
    else
      let cond := c.cond_get_agg svc.cond
      if cond = .COND_OFF ∨
          (svc.sighup = false ∧ (cond.toNat < cond_state.COND_ON.toNat ∨ svc_is_changed svc = true)) then
        let r := service_stop c svc w
        ({ r.1 with state := .SVC_READY_STATE }, r.2.1)
      else if cond = .COND_FLUX then
        ({ svc with state := .SVC_WAITING_STATE }, send_kill svc .SIGSTOP w)
      else if svc_is_changed svc then
        if svc.sighup then
          let r := service_restart c svc w
          ({ r.1 with dirty := 0 }, r.2.1)
        else
          let r := service_stop c svc w
          ({ r.1 with state := .SVC_READY_STATE, dirty := 0 }, r.2.1)
      else
        (svc, w)
  | .SVC_WAITING_STATE =>
    if !enabled then
      let r := service_stop c svc (send_kill svc .SIGCONT w)
      ({ r.1 with state := .SVC_HALTED_STATE }, r.2.1)
    else if svc.pid = 0 then
      ({ svc with restart_counter := svc.restart_counter + 1, state := .SVC_READY_STATE }, w)
    else
      match c.cond_get_agg svc.cond with
      | .COND_ON => ({ svc with state := .SVC_RUNNING_STATE }, send_kill svc .SIGCONT w)
      | .COND_OFF =>
        let r := service_stop c svc (send_kill svc .SIGCONT w)
        ({ r.1 with state := .SVC_READY_STATE }, r.2.1)
      | .COND_FLUX => (svc, w)
  | .SVC_PAUSED_STATE => (svc, w)

/-- The loop of `service_step`: passes are repeated (`goto restart`) as long
as a pass changed the state.  `none` means the given number of passes was
not enough to reach a pass that leaves the state alone. -/
def service_step_fuel : Nat → ctx → svc_t → world → Option (svc_t × world)
  | 0, _, _, _ => none
  | n + 1, c, svc, w =>
    let r := service_step_once c svc w
    if r.1.state ≠ svc.state then service_step_fuel n c r.1 r.2 else some r

/-- The function `service_step`.  Six passes always suffice (see
`service_step_fuel_six`), so the fallback value is never taken. -/
def service_step (c : ctx) (svc : svc_t) (w : world) : svc_t × world :=
  (service_step_fuel 6 c svc w).getD (svc, w)

/-- Lines 762-764 of `service_monitor`: the books are updated (`svc->pid = 0`)
and the record is stepped. -/
def service_reap (c : ctx) (svc : svc_t) (w : world) : svc_t × world :=
  service_step c { svc with pid := 0 } w

/-- A bound on the number of state changes `service_step` can still make
from a record, in a fixed context. -/
def step_rank (c : ctx) (svc : svc_t) : Nat :=
  match svc.state with
  | .SVC_HALTED_STATE => if service_enabled c svc then 2 else 0
  | .SVC_READY_STATE => 1
  | .SVC_RUNNING_STATE =>
    if service_enabled c svc = true ∧ svc.pid ≠ 0 ∧ c.cond_get_agg svc.cond = .COND_ON ∧
        svc.dirty = 0 then 0 else 4
  | .SVC_STOPPING_STATE => if svc.pid = 0 then 3 else 0
  | .SVC_DONE_STATE => if svc.dirty ≠ 0 then 3 else 0
  | .SVC_WAITING_STATE =>
    if service_enabled c svc = true ∧ svc.pid ≠ 0 ∧ c.cond_get_agg svc.cond = .COND_FLUX
    then 0 else 5
  | .SVC_PAUSED_STATE => 0

/-- The record and world after `n` passes of the `switch`, whether or not
`service_step` would have gone on that long. -/
def passes (c : ctx) : Nat → svc_t × world → svc_t × world
  | 0, p => p
  | n + 1, p => passes c n (service_step_once c p.1 p.2)

/-- Number of `fork` calls in a trace. -/
def fork_count : List event → Nat
  | [] => 0
  | event.fork _ :: t => fork_count t + 1
  | _ :: t => fork_count t

/-- Number of times the hooks of one hook point were run in a trace. -/
def hook_count (h : hook_t) (t : List event) : Nat :=
  t.count (event.hooks h)

/-- A context in which the record is enabled as far as the runlevel goes, its
aggregate condition is on, and every `service_start` succeeds with a pid > 1:
the command exists, respawning is not suspended and `fork` returns a child
pid. -/
def good_ctx (c : ctx) (svc : svc_t) : Prop :=
  ISSET svc.runlevels c.runlevel = true ∧ c.cond_get_agg svc.cond = .COND_ON ∧
  c.fexist svc.cmd = true ∧ is_norespawn c = false ∧ ∀ n, 1 < (c.start n).fork_pid

/-- A sequence of reaps, each in its own context. -/
def reaps (cs : List ctx) (p : svc_t × world) : svc_t × world :=
  cs.foldl (fun p c => service_reap c p.1 p.2) p

/-! ## Fixtures: the records and contexts of the end-to-end scenarios -/

/-- The record of `service [2345] /bin/false -- flaky`, freshly registered. -/
def flaky : svc_t :=
  { job := 1, id := 1, pid := 0, state := .SVC_HALTED_STATE, type := .SVC_TYPE_SERVICE,
    mtime := 0, dirty := 0, runlevels := 60, sighup := false, cond := "",
    restart_counter := 0, block := .SVC_BLOCK_NONE, inetd_cmd := false,
    inetd_type := .SOCK_STREAM, username := "", group := "", cmd := "/bin/false",
    args := ["/bin/false"], desc := "flaky", dynamic := 0, dynamic_stop := 0, has_cb := false }

/-- Runlevel 2, every condition on, every command present, respawning not
suspended, and the n-th `fork` returning pid `100 + n`. -/
def calm : ctx :=
  { runlevel := 2, cond_get_agg := fun _ => .COND_ON, fexist := fun p => !(p == "/mnt/norespawn" || p == "/tmp/norespawn"),
    sig_stopped := false, start := fun n => ⟨true, true, 100 + n⟩, kill := fun _ _ => 0 }

/-- The world before anything happened. -/
def quiet : world := { trace := [], starts := 0 }

/-- Like `calm`, but the system is out of processes: `fork` returns -1. -/
def nofork : ctx := { calm with start := fun _ => ⟨true, true, -1⟩ }

/-- Like `calm`, but `accept` fails on every inetd connection. -/
def noaccept : ctx := { calm with start := fun _ => ⟨false, true, -1⟩ }

/-- Like `calm`, but every condition is off. -/
def calm_off : ctx := { calm with cond_get_agg := fun _ => .COND_OFF }

/-- Like `calm`, but every condition is in flux. -/
def calm_flux : ctx := { calm with cond_get_agg := fun _ => .COND_FLUX }

/-- Like `calm`, in runlevel 1, where `flaky` and its kin are not allowed. -/
def calm_single : ctx := { calm with runlevel := 1 }

/-- The record of `task [2345] /bin/true -- job`, started as pid 77 and
therefore in Stopping. -/
def job_started : svc_t :=
  { flaky with type := .SVC_TYPE_TASK, state := .SVC_STOPPING_STATE, pid := 77,
               cmd := "/bin/true", args := ["/bin/true"], desc := "job" }

/-- The record of `run [2345] /bin/mount -a -- mount fs`, freshly registered. -/
def mount_fs : svc_t :=
  { flaky with type := .SVC_TYPE_RUN, cmd := "/bin/mount", args := ["/bin/mount", "-a"],
               desc := "mount fs" }

/-- The record of `service [2345] /sbin/syslogd -n -- syslog`, running as pid
55; it does not take `SIGHUP`. -/
def syslogd_running : svc_t :=
  { flaky with state := .SVC_RUNNING_STATE, pid := 55, cmd := "/sbin/syslogd",
               args := ["/sbin/syslogd", "-n"], desc := "syslog" }

/-- The same service paused (`SIGSTOP`) in Waiting. -/
def syslogd_waiting : svc_t := { syslogd_running with state := .SVC_WAITING_STATE }

/-- The same task after its process was reaped: the books say pid 0. -/
def job_reaped : svc_t := { job_started with pid := 0 }

/-- A service like `syslogd_running` that takes `SIGHUP`, edited since it was
started (`dirty` is 1). -/
def hup_edited : svc_t := { syslogd_running with sighup := true, dirty := 1 }

/-- The state/pid relation of the data model: Running implies pid > 1, and
Halted, Ready or Done imply pid == 0. -/
def state_pid_ok (svc : svc_t) : Prop :=
  (svc.state = .SVC_RUNNING_STATE → 1 < svc.pid) ∧
  (svc.state = .SVC_HALTED_STATE ∨ svc.state = .SVC_READY_STATE ∨
    svc.state = .SVC_DONE_STATE → svc.pid = 0)

instance (svc : svc_t) : Decidable (state_pid_ok svc) := by
  unfold state_pid_ok
  infer_instance

/-- Where a record that was not running at entry can be found during a
`service_step` call that began in world `w0`: without a pid in Halted, Ready
and Waiting; in Done without a pid, or clean and started by this call; in
Running only as this call left it after a start. -/
def rest_inv (w0 : world) (c : ctx) (s : svc_t) (v : world) : Prop :=
  s.type ≠ .SVC_TYPE_FREE ∧
  (s.state = .SVC_HALTED_STATE ∨ s.state = .SVC_READY_STATE ∨
    s.state = .SVC_WAITING_STATE → s.pid = 0) ∧
  (s.state = .SVC_DONE_STATE → s.pid = 0 ∨ (s.dirty = 0 ∧ w0.starts < v.starts)) ∧
  (s.state = .SVC_RUNNING_STATE →
    service_enabled c s = true ∧ s.pid ≠ 0 ∧ c.cond_get_agg s.cond = .COND_ON ∧ s.dirty = 0) ∧
  w0.starts ≤ v.starts

/-- The loop of `service_step`, entered with `p`, gets as far as pass number
`k` (counted from 0): each earlier pass changed the state. -/
def pass_runs (c : ctx) (p : svc_t × world) (k : Nat) : Prop :=
  ∀ j, j < k → (passes c (j + 1) p).1.state ≠ (passes c j p).1.state

/-- The pass made from `p` forks, and it finds the record in Ready, enabled,
with its aggregate condition on and fewer than `RESPAWN_MAX` restarts. -/
def forks_from_ready (c : ctx) (p : svc_t × world) : Prop :=
  p.1.state = .SVC_READY_STATE ∧ service_enabled c p.1 = true ∧
  c.cond_get_agg p.1.cond = .COND_ON ∧ p.1.restart_counter < RESPAWN_MAX ∧
  (service_step_once c p.1 p.2).2.starts = p.2.starts + 1 ∧
  fork_count (service_step_once c p.1 p.2).2.trace = fork_count p.2.trace + 1

/-- The record of `flaky` blocked by the operator. -/
def flaky_blocked : svc_t := { flaky with block := .SVC_BLOCK_USER }

/-- What can happen to a record between two looks at it: `service_step` is
called in some context (any runlevel, any condition value, any outcome of
`service_start`), its process is lost and `service_monitor` zeroes `pid`, or a
reload or the operator rewrites the fields the state machine only reads
(`dirty`, `block`, `runlevels`, `sighup`, `cond`). -/
inductive action where
  | step (c : ctx)
  | zero_pid
  | configure (dirty : Int) (block : svc_block_t) (runlevels : Nat) (sighup : Bool)
      (cond : String)

/-- The effect of one action on the record and the world. -/
def act : action → svc_t × world → svc_t × world
  | .step c, p => service_step c p.1 p.2
  | .zero_pid, p => ({ p.1 with pid := 0 }, p.2)
  | .configure dirty block runlevels sighup cond, p =>
    ({ p.1 with dirty := dirty, block := block, runlevels := runlevels, sighup := sighup,
                cond := cond }, p.2)

/-- The effect of a sequence of actions, first to last. -/
def run (acts : List action) (p : svc_t × world) : svc_t × world :=
  acts.foldl (fun p a => act a p) p

/-- The respawn bound with its state-dependent slack: a record that has been
started (Running, Stopping, Waiting, Done) was started with fewer than
`RESPAWN_MAX` restarts; elsewhere the counter is at most `RESPAWN_MAX`. -/
def respawn_inv (s : svc_t) : Prop :=
  s.restart_counter ≤ RESPAWN_MAX ∧
  (s.state = .SVC_RUNNING_STATE ∨ s.state = .SVC_STOPPING_STATE ∨
    s.state = .SVC_WAITING_STATE ∨ s.state = .SVC_DONE_STATE → s.restart_counter < RESPAWN_MAX)

/-- The record of an inetd service as `service_register` leaves it: Waiting. -/
def sshd_inetd : svc_t :=
  { flaky with type := .SVC_TYPE_INETD, state := .SVC_WAITING_STATE, cmd := "/sbin/sshd",
               args := ["/sbin/sshd", "-i"], desc := "ssh" }

/-! ## The supervisor: registry, runlevel changes, reaping -/

/-- The global state of the supervisor: the registry in iteration order, the
globals `runlevel` and `prevlevel`, the two teardown flags of `service.c`, the
current answer of the condition store to `cond_get_agg`, and the world. -/
structure finit_t where
  svcs : List svc_t
  runlevel : Int
  prevlevel : Int
  in_teardown : Bool
  in_dyn_teardown : Bool
  cond : String → cond_state
  w : world

/-- The operating system and the collaborators of `service.c` whose code is
not part of it: configuration reload, the condition store, the plugins, the
tty and inetd layers, the bootstrap cleaner, and the constants
`SVC_TYPE_ANY` and `SYNC_SHUTDOWN`.  `svc_clean_bootstrap` answers `none`
when it returns 0 and the registry it leaves behind when it returns
non-zero. -/
structure env_t where
  fexist : String → Bool
  sig_stopped : Bool
  start : Nat → start_outcome
  kill : Int → signal_t → Int
  SVC_TYPE_ANY : Nat
  SYNC_SHUTDOWN : String
  conf_reload_dynamic : List svc_t → List svc_t
  cond_reload : (String → cond_state) → (String → cond_state)
  plugin_hooks : hook_t → (String → cond_state) → (String → cond_state)
  tty_respawn : Int → Bool
  inetd_respawn : Int → Bool
  svc_clean_bootstrap : List svc_t → svc_t → Option (List svc_t)

/-- What `service_step` sees of the supervisor and its environment. -/
def mk_ctx (env : env_t) (s : finit_t) : ctx :=
  { runlevel := s.runlevel
    cond_get_agg := s.cond
    fexist := env.fexist
    sig_stopped := env.sig_stopped
    start := env.start
    kill := env.kill }

/-- The loop of `service_step_all` over the registry. -/
def step_list (c : ctx) (types : Nat) : List svc_t → world → List svc_t × world
  | [], w => ([], w)
  | svc :: rest, w =>
    if svc.type.toNat &&& types = 0 then
      let r := step_list c types rest w
      (svc :: r.1, r.2)
    else
      let r1 := service_step c svc w
      let r := step_list c types rest r1.2
      (r1.1 :: r.1, r.2)

/-- The function `service_step_all`. -/
def service_step_all (env : env_t) (types : Nat) (s : finit_t) : finit_t :=
  let r := step_list (mk_ctx env s) types s.svcs s.w
  { s with svcs := r.1, w := r.2 }

/-- The function `service_stop_is_done`: no record is in Stopping. -/
def service_stop_is_done (s : finit_t) : Bool :=
  s.svcs.all (fun svc => decide (svc.state ≠ .SVC_STOPPING_STATE))

/-- The call `plugin_run_hooks(h)`: the plugins run, which may publish
conditions. -/
def plugin_run_hooks (env : env_t) (h : hook_t) (s : finit_t) : finit_t :=
  { s with cond := env.plugin_hooks h s.cond,
           w := { s.w with trace := s.w.trace ++ [event.hooks h] } }

/-- Appends one event to the trace of the supervisor. -/
def emit (e : event) (s : finit_t) : finit_t :=
  { s with w := { s.w with trace := s.w.trace ++ [e] } }

/-- Modelled from the spec: `svc_clean_dynamic(service_unregister)` is not
part of `service.c`; it frees every record still at `dirty == -1` and in
Halted. -/
def svc_clean_dynamic (s : finit_t) : finit_t :=
  let stale := fun (svc : svc_t) => decide (svc.dirty = -1) && decide (svc.state = .SVC_HALTED_STATE)
  { s with svcs := s.svcs.filter (fun svc => !stale svc) }

/-- The function `service_reload_dynamic_finish`. -/
def service_reload_dynamic_finish (env : env_t) (s : finit_t) : finit_t :=
  let s := { s with in_dyn_teardown := false }
  let s := plugin_run_hooks env .HOOK_SVC_RECONF s
  service_step_all env svc_type_t.SVC_TYPE_SERVICE.toNat s

/-- The state at the end of the first stage of `service_reload_dynamic`, right
before the test `!service_stop_is_done()` (lines 383-391). -/
def service_reload_dynamic_teardown (env : env_t) (s : finit_t) : finit_t :=
  let s := { s with svcs := env.conf_reload_dynamic s.svcs }
  let s := { s with in_dyn_teardown := true }
  let s := { s with cond := env.cond_reload s.cond }
  service_step_all env svc_type_t.SVC_TYPE_SERVICE.toNat s

/-- The function `service_reload_dynamic`. -/
def service_reload_dynamic (env : env_t) (s : finit_t) : finit_t :=
  let s := service_reload_dynamic_teardown env s
  if !service_stop_is_done s then s
  else service_reload_dynamic_finish env s

/-- The function `service_runlevel_finish`. -/
def service_runlevel_finish (env : env_t) (s : finit_t) : finit_t :=
  let s := plugin_run_hooks env .HOOK_RUNLEVEL_CHANGE s
  let s := { s with in_teardown := false }
  let s := service_step_all env env.SVC_TYPE_ANY s
  let s := svc_clean_dynamic s
  if s.runlevel = 0 then emit (event.shutdown .SIGUSR2) s
  else if s.runlevel = 6 then emit (event.shutdown .SIGUSR1) s
  else
    let s := emit (event.nologin (decide (s.runlevel = 1))) s
    if s.prevlevel > 0 then emit (event.tty_runlevel s.runlevel) s else s

/-- The state at the end of the first stage of `service_runlevel`, right
before the test `!service_stop_is_done()` (lines 456-467). -/
def service_runlevel_teardown (env : env_t) (newlevel : Int) (s : finit_t) : finit_t :=
  let s := { s with prevlevel := s.runlevel, runlevel := newlevel }
  let s := { s with svcs := env.conf_reload_dynamic s.svcs }
  let s := { s with in_teardown := true }
  service_step_all env env.SVC_TYPE_ANY s

/-- The function `service_runlevel`. -/
def service_runlevel (env : env_t) (newlevel : Int) (s : finit_t) : finit_t :=
  if s.runlevel = newlevel then s
  else if newlevel < 0 ∨ newlevel > 9 then s
  else
    let s := service_runlevel_teardown env newlevel s
    if !service_stop_is_done s then s
    else service_runlevel_finish env s

/-- The function `service_teardown_finish`. -/
def service_teardown_finish (env : env_t) (s : finit_t) : finit_t :=
  if !(s.in_teardown || s.in_dyn_teardown) then s
  else if !service_stop_is_done s then s
  else
    let s := if s.in_teardown then service_runlevel_finish env s else s
    if s.in_dyn_teardown then service_reload_dynamic_finish env s else s

/-- Modelled from the spec: `svc_find_by_pid` is not part of `service.c`; it
looks the record up by OS process id. -/
def svc_find_by_pid (svcs : List svc_t) (pid : Int) : Option svc_t :=
  svcs.find? (fun svc => decide (svc.pid = pid))

/-- Writing through the pointer `svc_find_by_pid` returned: the first record
with that pid is replaced. -/
def svc_store (pid : Int) (new : svc_t) : List svc_t → List svc_t
  | [] => []
  | svc :: rest => if svc.pid = pid then new :: rest else svc :: svc_store pid new rest

/-- The state of `service_monitor` after `service_step(svc)` and before
`service_teardown_finish()` (lines 762-764). -/
def service_monitor_step (env : env_t) (lost : Int) (svc : svc_t) (s : finit_t) : finit_t :=
  let r := service_reap (mk_ctx env s) svc s.w
  { s with svcs := svc_store lost r.1 s.svcs, w := r.2 }

/-- The function `service_monitor`. -/
def service_monitor (env : env_t) (lost : Int) (s : finit_t) : finit_t :=
  if env.fexist env.SYNC_SHUTDOWN || decide (lost ≤ 1) then s
  else if env.tty_respawn lost then s
  else if env.inetd_respawn lost then s
  else
    match svc_find_by_pid s.svcs lost with
    | none => s
    | some svc =>
      match (if s.prevlevel = 0 then env.svc_clean_bootstrap s.svcs svc else none) with
      | some cleaned => { s with svcs := cleaned }
      | none => service_teardown_finish env (service_monitor_step env lost svc s)

/-- A sequence of `service_monitor` calls, each for its own lost pid and in
its own environment. -/
def monitors (calls : List (env_t × Int)) (s : finit_t) : finit_t :=
  calls.foldl (fun s call => service_monitor call.1 call.2 s) s

/-- The call `service_monitor(lost)` gets to the record `svc`: no shutdown is
under way, the pid is a child's, neither the tty nor the inetd layer claims
it, it is the pid of `svc`, and the bootstrap cleaner leaves the record
alone. -/
def monitor_reaches (env : env_t) (lost : Int) (s : finit_t) (svc : svc_t) : Prop :=
  env.fexist env.SYNC_SHUTDOWN = false ∧ 1 < lost ∧ env.tty_respawn lost = false ∧
  env.inetd_respawn lost = false ∧ svc_find_by_pid s.svcs lost = some svc ∧
  (s.prevlevel = 0 → env.svc_clean_bootstrap s.svcs svc = none)

/-! ## Fixtures for runlevel changes -/

/-- An environment in which every command is present, `fork` returns
`100 + n`, no plugin touches the conditions, configuration reload finds
nothing new, and `SVC_TYPE_ANY` has the bits of all four types of
`src/svc.h`. -/
def plain : env_t :=
  { fexist := fun p => !(p == "/mnt/norespawn" || p == "/tmp/norespawn" || p == "/var/run/finit.shutdown")
    sig_stopped := false
    start := fun n => ⟨true, true, 100 + n⟩
    kill := fun _ _ => 0
    SVC_TYPE_ANY := 7
    SYNC_SHUTDOWN := "/var/run/finit.shutdown"
    conf_reload_dynamic := fun l => l
    cond_reload := fun f => f
    plugin_hooks := fun _ f => f
    tty_respawn := fun _ => false
    inetd_respawn := fun _ => false
    svc_clean_bootstrap := fun _ _ => none }

/-- Service `A [23]`, running as pid 10. -/
def svc_a : svc_t :=
  { flaky with runlevels := 12, state := .SVC_RUNNING_STATE, pid := 10, cmd := "/sbin/a",
               args := ["/sbin/a"], desc := "A" }

/-- Service `B [3]`, running as pid 11. -/
def svc_b : svc_t :=
  { flaky with job := 2, runlevels := 8, state := .SVC_RUNNING_STATE, pid := 11,
               cmd := "/sbin/b", args := ["/sbin/b"], desc := "B" }

/-- Service `C [2]`, halted: it is not allowed in runlevel 3. -/
def svc_c : svc_t :=
  { flaky with job := 3, runlevels := 4, cmd := "/sbin/c", args := ["/sbin/c"], desc := "C" }

/-- Runlevel 3 with `A` and `B` running, every condition on, nothing in
progress. -/
def level3 : finit_t :=
  { svcs := [svc_a, svc_b], runlevel := 3, prevlevel := 2, in_teardown := false,
    in_dyn_teardown := false, cond := fun _ => .COND_ON, w := quiet }

/-- Service `B` after the runlevel left 3: sent `SIGTERM`, in Stopping. -/
def svc_b_stopping : svc_t := { svc_b with state := .SVC_STOPPING_STATE }

/-- The runlevel change 3 to 2 after its first stage: `B` is in Stopping and
the second stage waits for it to be collected. -/
def leaving3 : finit_t :=
  { level3 with svcs := [svc_a, svc_b_stopping], runlevel := 2, prevlevel := 3,
                in_teardown := true,
                w := { trace := [event.kill 11 .SIGTERM], starts := 0 } }

/-- Runlevel 3 with only the halted `C` registered. -/
def level3_c : finit_t := { level3 with svcs := [svc_c] }

/-- A runlevel change and a reload both wait for their second stage, nothing
is in Stopping any more, and a task allowed in the runlevel is halted. -/
def both_pending : finit_t :=
  { svcs := [{ job_reaped with state := .SVC_HALTED_STATE }], runlevel := 2, prevlevel := 3,
    in_teardown := true, in_dyn_teardown := true, cond := fun _ => .COND_ON, w := quiet }

/-! ## Fixtures for single steps -/

/-- The record of `flaky` in Ready after three failed attempts. -/
def flaky_ready : svc_t := { flaky with state := .SVC_READY_STATE, restart_counter := 3 }

/-- The running `syslogd_running`, loaded from a `.conf` file that has since
been deleted: the reload marked it for removal (`dirty` is -1). -/
def removed_running : svc_t := { syslogd_running with mtime := 1, dirty := -1 }

/-- Like `calm`, but finit itself is stopped: respawning is suspended. -/
def calm_stopped : ctx := { calm with sig_stopped := true }

/-- Like `calm`, but `kill` fails. -/
def calm_killfail : ctx := { calm with kill := fun _ _ => -1 }

/-- Like `calm`, but no file exists. -/
def calm_missing : ctx := { calm with fexist := fun _ => false }

/-- The record of `mount_fs` in Ready, edited since it last ran. -/
def mount_fs_ready : svc_t := { mount_fs with state := .SVC_READY_STATE, dirty := 1 }

/-- The running `syslogd_running`, edited since it was started. -/
def syslogd_edited : svc_t := { syslogd_running with dirty := 1 }

/-! ## Registration -/

/-- Error numbers of `errno.h` returned by `service_register`. -/
def EINVAL : Int := 22

def ENOENT : Int := 2

def ENOMEM : Int := 12

/-- Sizes of the character arrays of a record, `src/svc.h`. -/
def MAX_ARG_LEN : Nat := 64

def MAX_STR_LEN : Nat := 64

def MAX_USER_LEN : Nat := 16

def MAX_NUM_SVC_ARGS : Nat := 32

def MAX_NUM_SVC : Nat := 64

/-- The call `strlcpy(dst, src, size)`: at most `size - 1` characters of the
source arrive in the destination. -/
def strlcpy (size : Nat) (src : List Char) : String :=
  String.mk (src.take (size - 1))

/-- The call `strstr(line, "-- ")` followed by `*desc = 0`: the line up to the
first `"-- "`, and the text after it (`desc + 3`) when there is one. -/
def split_desc : List Char → List Char × Option (List Char)
  | [] => ([], none)
  | '-' :: '-' :: ' ' :: d => ([], some d)
  | c :: rest => ((split_desc rest).1.cons c, (split_desc rest).2)

/-- The tokens successive `strtok(.., delim)` calls return: the maximal runs of
characters other than the delimiter.  `cur` is the token being read, in
reverse. -/
def strtok_from (delim : Char) : List Char → List Char → List (List Char)
  | [], cur => if cur = [] then [] else [cur.reverse]
  | c :: rest, cur =>
    if c = delim then
      if cur = [] then strtok_from delim rest [] else cur.reverse :: strtok_from delim rest []
    else strtok_from delim rest (c :: cur)

def strtok (delim : Char) (line : List Char) : List (List Char) :=
  strtok_from delim line []

/-- The call `strchr(s, ch)` followed by `*ptr++ = 0`: the string up to the
first `ch`, and the rest after it when `ch` occurs. -/
def split_at_char (ch : Char) : List Char → List Char × Option (List Char)
  | [] => ([], none)
  | c :: rest =>
    if c = ch then ([], some rest)
    else ((split_at_char ch rest).1.cons c, (split_at_char ch rest).2)

/-- ASCII `tolower`. -/
def tolower (c : Char) : Char :=
  if 'A'.toNat ≤ c.toNat ∧ c.toNat ≤ 'Z'.toNat then Char.ofNat (c.toNat + 32) else c

/-- The test `!strncasecmp(s, word, n)` for a lower-case `word` of `n`
characters: the first `n` characters of `s` are `word`, whatever their case. -/
def strncasecmp_eq (s : List Char) (word : String) : Bool :=
  decide ((s.take word.length).map tolower = word.data)

/-- The value of a run of leading decimal digits. -/
def atoi_digits : List Char → Int → Int
  | [], acc => acc
  | c :: rest, acc =>
    if '0'.toNat ≤ c.toNat ∧ c.toNat ≤ '9'.toNat then
      atoi_digits rest (acc * 10 + (c.toNat - '0'.toNat : Nat))
    else acc

/-- The call `atoi(s)` on a token (which holds no blank): an optional sign and
the leading digits; 0 when there are none. -/
def atoi : List Char → Int
  | '-' :: rest => - atoi_digits rest 0
  | '+' :: rest => atoi_digits rest 0
  | s => atoi_digits s 0

/-- The locals of `service_register` that the token loop fills in. -/
structure decl_t where
  username : Option (List Char)
  runlevels : Option (List Char)
  cond : Option (List Char)
  id : Int
  forking : Bool
  service : Option (List Char)

/-- The `while (cmd)` loop of `service_register` (lines 551-582) over the
tokens of the line: modifiers are taken in until the first token that is none,
the command.  `none` is the jump to `incomplete`: the tokens ran out. -/
def parse_modifiers : List (List Char) → decl_t → Option (decl_t × List Char × List (List Char))
  | [], _ => none
  | tok :: rest, d =>
    if tok.head? = some '@' then parse_modifiers rest { d with username := some tok.tail }
    else if tok.head? = some '[' then parse_modifiers rest { d with runlevels := some tok }
    else if tok.head? = some '<' then parse_modifiers rest { d with cond := some tok.tail }
    else if tok.head? = some ':' then parse_modifiers rest { d with id := atoi tok.tail }
    else if strncasecmp_eq tok "nowait" then parse_modifiers rest { d with forking := true }
    else if strncasecmp_eq tok "wait" then parse_modifiers rest { d with forking := false }
    else if tok.head? ≠ some '/' ∧ '/' ∈ tok then parse_modifiers rest { d with service := some tok }
    else some (d, tok, rest)

/-- Lines 585-594 of `service_register`: an inetd `service/proto@ifaces`
token is cut at the first `@` and then at the first `/`.  The outer `none` is
the jump to `incomplete` (no `/` left of the `@`); without a token all three
stay NULL. -/
def split_service :
    Option (List Char) → Option (Option (List Char) × Option (List Char) × Option (List Char))
  | none => some (none, none, none)
  | some s =>
    match (split_at_char '/' (split_at_char '@' s).1).2 with
    | none => none
    | some proto =>
      some (some (split_at_char '/' (split_at_char '@' s).1).1, some proto, (split_at_char '@' s).2)

/-- Modelled from the spec: `svc_find(cmd, id)` is not part of `service.c`;
`(command, id)` is the lookup key of the registry.  The answer is the record
and its position, counted from `i`. -/
def svc_find (cmd : String) (id : Int) : List svc_t → Nat → Option (Nat × svc_t)
  | [], _ => none
  | svc :: rest, i =>
    if svc.cmd = cmd ∧ svc.id = id then some (i, svc) else svc_find cmd id rest (i + 1)

/-- Modelled from the spec: `svc_next_id(cmd)` is not part of `service.c`; it
returns `max(id) + 1` over the records sharing the command. -/
def svc_next_id (cmd : String) : List svc_t → Int
  | [] => 1
  | svc :: rest => if svc.cmd = cmd then max (svc.id + 1) (svc_next_id cmd rest)
                   else svc_next_id cmd rest

/-- Modelled from the spec: `svc_check_dirty(svc, mtime)` is not part of
`service.c`; `dirty` is set when the old mtime differs from the new one
(comment of `dirty` in `src/svc.h`) and cleared otherwise, and the new mtime
is kept. -/
def svc_check_dirty (svc : svc_t) (mtime : Int) : svc_t :=
  { svc with dirty := if svc.mtime ≠ mtime then 1 else 0, mtime := mtime }

/-- The collaborators of `service_register` whose code is not part of
`service.c`: the plugins (`plugin_find`), the runlevel and condition parsers
of the configuration reader, the allocator `svc_new` (`none` when the table is
full), and the inetd layer (`inetd_match`, `inetd_new` with `none` for a
failure, and the return values of `inetd_allow(.., NULL)` and of `svc_del`). -/
structure reg_env_t where
  plugin_inetd : Option String → Bool
  plugin_svc : String → Option (Int × Int)
  conf_parse_runlevels : Option String → Nat
  conf_parse_cond : svc_t → Option String → svc_t
  svc_new : List svc_t → String → Int → svc_type_t → Option svc_t
  inetd_match : svc_t → Option String → Option String → Bool
  inetd_new : svc_t → Option String → Option String → Bool → Option svc_t
  inetd_allow_ret : Int
  svc_del_ret : Int

/-- The function `find_inetd_svc`: the first inetd record whose command is a
prefix of `path` and whose descriptor matches service and protocol. -/
def find_inetd_svc (env : reg_env_t) (path : List Char) (service proto : Option String) :
    List svc_t → Option svc_t
  | [] => none
  | svc :: rest =>
    if svc.type = .SVC_TYPE_INETD ∧ svc.cmd.data.isPrefixOf path = true ∧
        env.inetd_match svc service proto = true then some svc
    else find_inetd_svc env path service proto rest

/-- The write `svc->args[i] = v`.  The list holds the table from its first
entry on, entries it does not reach being empty; a write at or beyond
`MAX_NUM_SVC_ARGS` has no place in the table and is left out of it. -/
def args_set (t : List String) (i : Nat) (v : String) : List String :=
  if i < MAX_NUM_SVC_ARGS then (t ++ List.replicate (i + 1 - t.length) "").set i v else t

/-- Lines 655-657 of `service_register`: `strlcpy(svc->args[i++], cmd, ..)` for
the command and every further token. -/
def args_copy : List (List Char) → Nat → List String → List String
  | [], _, t => t
  | tok :: rest, i, t => args_copy rest (i + 1) (args_set t i (strlcpy MAX_ARG_LEN tok))

/-- What a `service_register` call leaves behind: the registry, the return
value, and the indices `i` of the writes to `svc->args[i]` it made, in
order. -/
structure register_t where
  svcs : List svc_t
  ret : Int
  args_written : List Nat

/-- Lines 636-703 of `service_register`: the record at position `i` of the
registry is filled in from the declaration. -/
def service_register_fill (env : reg_env_t) (type : svc_type_t) (mtime : Int)
    (desc : Option (List Char)) (d : decl_t) (cmd : List Char) (rest : List (List Char))
    (service proto ifaces : Option (List Char)) (plugin : Bool)
    (svcs : List svc_t) (i : Nat) (svc : svc_t) : register_t :=
  let svc := svc_check_dirty svc mtime
  let svc := match desc with
    | some text => { svc with desc := strlcpy MAX_STR_LEN text }
    | none => svc
  let svc := match d.username with
    | some u =>
      let svc := match (split_at_char ':' u).2 with
        | some g => { svc with group := strlcpy MAX_USER_LEN g }
        | none => svc
      { svc with username := strlcpy MAX_USER_LEN (split_at_char ':' u).1 }
    | none => svc
  let n := (cmd :: rest).length
  let written := if plugin then [] else List.range (n + 1)
  let svc :=
    if plugin then { svc with inetd_cmd := true }
    else
      let svc := { svc with args := args_set (args_copy (cmd :: rest) 0 svc.args) n "" }
      match env.plugin_svc svc.cmd with
      | some cb => { svc with has_cb := true, dynamic := cb.1, dynamic_stop := cb.2 }
      | none => svc
  let svc := { svc with runlevels := env.conf_parse_runlevels (d.runlevels.map String.mk) }
  let svc := if type = .SVC_TYPE_SERVICE then env.conf_parse_cond svc (d.cond.map String.mk)
    else svc
  if svc_is_inetd svc then
    let svc := { svc with state := .SVC_WAITING_STATE }
    match env.inetd_new svc (service.map String.mk) (proto.map String.mk) d.forking with
    | none => { svcs := svcs.eraseIdx i, ret := env.svc_del_ret, args_written := written }
    | some svc =>
      { svcs := svcs.set i svc, ret := if ifaces.isNone then env.inetd_allow_ret else 0,
        args_written := written }
  else
    { svcs := svcs.set i svc, ret := 0, args_written := written }

/-- Lines 625-633 of `service_register`: the record is looked up by command
and id, and allocated when there is none. -/
def service_register_record (env : reg_env_t) (type : svc_type_t) (mtime : Int)
    (desc : Option (List Char)) (d : decl_t) (cmd : List Char) (rest : List (List Char))
    (service proto ifaces : Option (List Char)) (plugin : Bool) (id : Int)
    (svcs : List svc_t) : register_t :=
  match svc_find (String.mk cmd) id svcs 0 with
  | some found =>
    service_register_fill env type mtime desc d cmd rest service proto ifaces plugin svcs
      found.1 found.2
  | none =>
    match env.svc_new svcs (String.mk cmd) id type with
    | none => { svcs := svcs, ret := ENOMEM, args_written := [] }
    | some svc =>
      service_register_fill env type mtime desc d cmd rest service proto ifaces plugin
        (svcs ++ [svc]) svcs.length svc

/-- The function `service_register`.  `line` and `username` are `none` for a
NULL pointer. -/
def service_register (env : reg_env_t) (type : svc_type_t) (line : Option String)
    (mtime : Int) (username : Option String) (svcs : List svc_t) : register_t :=
  match line with
  | none => { svcs := svcs, ret := EINVAL, args_written := [] }
  | some line =>
    match parse_modifiers (strtok ' ' (split_desc line.data).1)
        { username := username.map String.data, runlevels := none, cond := none, id := 1,
          forking := false, service := none } with
    | none => { svcs := svcs, ret := ENOENT, args_written := [] }
    | some (d, cmd, rest) =>
      match split_service d.service with
      | none => { svcs := svcs, ret := ENOENT, args_written := [] }
      | some (service, proto, ifaces) =>
        if type = .SVC_TYPE_INETD then
          let internal := strncasecmp_eq cmd "internal"
          let ps := if internal then
              match (split_at_char '.' cmd).2 with
              | some p => some (String.mk p)
              | none => service.map String.mk
            else none
          let cmd := if internal then (split_at_char '.' cmd).1 else cmd
          if internal ∧ env.plugin_inetd ps = false then
            { svcs := svcs, ret := ENOENT, args_written := [] }
          else
            match find_inetd_svc env cmd (service.map String.mk) (proto.map String.mk) svcs with
            | some _ =>
              { svcs := svcs, ret := if ifaces.isNone then env.inetd_allow_ret else 0,
                args_written := [] }
            | none =>
              service_register_record env type mtime (split_desc line.data).2 d cmd rest
                service proto ifaces internal (svc_next_id (String.mk cmd) svcs) svcs
        else
          service_register_record env type mtime (split_desc line.data).2 d cmd rest
            service proto ifaces false d.id svcs

/-! ## Fixtures for registration -/

/-- The value of a runlevel token such as `[2345]`: one bit per digit; the
default `[2-5]` without a token. -/
def runlevel_bits : List Char → Nat
  | [] => 0
  | c :: rest =>
    if '0'.toNat ≤ c.toNat ∧ c.toNat ≤ '9'.toNat then
      2 ^ (c.toNat - '0'.toNat) ||| runlevel_bits rest
    else runlevel_bits rest

/-- A record as the allocator hands it out: zeroed but for command, id and
type. -/
def blank (cmd : String) (id : Int) (type : svc_type_t) : svc_t :=
  { job := 0, id := id, pid := 0, state := .SVC_HALTED_STATE, type := type, mtime := 0,
    dirty := 0, runlevels := 0, sighup := false, cond := "", restart_counter := 0,
    block := .SVC_BLOCK_NONE, inetd_cmd := false, inetd_type := .SOCK_STREAM, username := "",
    group := "", cmd := cmd, args := [], desc := "", dynamic := 0, dynamic_stop := 0,
    has_cb := false }

/-- Collaborators for registration: no plugins, digits as runlevels, the
condition stored as written, a table of `MAX_NUM_SVC` records, an inetd layer
that accepts everything. -/
def reg_plain : reg_env_t :=
  { plugin_inetd := fun _ => false
    plugin_svc := fun _ => none
    conf_parse_runlevels := fun r =>
      match r with
      | some t => runlevel_bits t.data
      | none => 60
    conf_parse_cond := fun svc c =>
      match c with
      | some t => { svc with cond := t, sighup := true }
      | none => { svc with cond := "", sighup := true }
    svc_new := fun svcs cmd id type =>
      if svcs.length < MAX_NUM_SVC then some { blank cmd id type with job := svcs.length + 1 }
      else none
    inetd_match := fun _ _ _ => false
    inetd_new := fun svc _ _ _ => some svc
    inetd_allow_ret := 0
    svc_del_ret := 0 }

/-- A task with command and 32 arguments: 33 tokens. -/
def line_33 : String := "/bin/echo" ++ String.join (List.replicate 32 " x")

/-- A first declaration of `/bin/foo`, with user, group and description. -/
def line_first : String := "@joe:staff [2345] /bin/foo -a -b -- Foo daemon"

/-- A second declaration of `/bin/foo`, without them. -/
def line_second : String := "[3] /bin/foo -x"

/-- The registry after `line_first` and then `line_second` were registered as
tasks. -/
def reg_both : register_t :=
  service_register reg_plain .SVC_TYPE_TASK (some line_second) 0 none
    (service_register reg_plain .SVC_TYPE_TASK (some line_first) 0 none []).svcs

/-- The registry after `line_second` alone was registered as a task. -/
def reg_alone : register_t :=
  service_register reg_plain .SVC_TYPE_TASK (some line_second) 0 none []

/-- The tests of the `while (cmd)` loop of `service_register` (lines 552-567)
on one token: true when the loop takes the token as a modifier and goes on to
the next one, false when it is the `break` that makes the token the
command. -/
def is_modifier (tok : List Char) : Bool :=
  if tok.head? = some '@' then true
  else if tok.head? = some '[' then true
  else if tok.head? = some '<' then true
  else if tok.head? = some ':' then true
  else if strncasecmp_eq tok "nowait" then true
  else if strncasecmp_eq tok "wait" then true
  else if tok.head? ≠ some '/' ∧ '/' ∈ tok then true
  else false

/-- A line of modifiers only, with a description. -/
def line_modifiers : String := "@joe [2345] <net/up> :2 NoWait ssh/tcp -- Only modifiers"

/-- Where a record can be found during a `service_step` call that began in
world `w0`, whatever state it entered in; `Hp` says which pids it may still be
holding from before the call.  In Halted, Ready and Waiting the pid is such a
one; in Done it is 0, or the record is clean and was started by this call; in
Running it is as this call left it after a start, or the pid is such a
one. -/
def pid_inv (Hp : Int → Prop) (w0 : world) (c : ctx) (s : svc_t) (v : world) : Prop :=
  s.type ≠ .SVC_TYPE_FREE ∧
  (s.state = .SVC_HALTED_STATE ∨ s.state = .SVC_READY_STATE ∨
    s.state = .SVC_WAITING_STATE → Hp s.pid) ∧
  (s.state = .SVC_DONE_STATE → s.pid = 0 ∨ (s.dirty = 0 ∧ w0.starts < v.starts)) ∧
  (s.state = .SVC_RUNNING_STATE →
    (service_enabled c s = true ∧ s.pid ≠ 0 ∧ c.cond_get_agg s.cond = .COND_ON ∧ s.dirty = 0) ∨
    Hp s.pid) ∧
  w0.starts ≤ v.starts

/-- Like `plain`, with a bootstrap cleaner that frees a collected record
allowed in the bootstrap runlevel only (`runlevels` is bit 0 alone) and
answers non-zero for it. -/
def boot_env : env_t :=
  { plain with
    svc_clean_bootstrap := fun svcs svc =>
      if svc.runlevels = 1 then some (svcs.filter (fun x => decide (x.pid ≠ svc.pid)))
      else none }

/-- A bootstrap-only task, `task [S] /bin/true -- job`, started as pid 77 and
still running. -/
def boot_task : svc_t := { job_started with runlevels := 1 }

/-- The end of bootstrap: runlevel 0, `A [23]` already running, the bootstrap
task not yet finished, nothing in progress. -/
def booting : finit_t :=
  { svcs := [svc_a, boot_task], runlevel := 0, prevlevel := -1, in_teardown := false,
    in_dyn_teardown := false, cond := fun _ => .COND_ON, w := quiet }

/-! ## Basic facts about the supervision primitives -/

theorem service_enabled_eq (c : ctx) (svc : svc_t) :
    service_enabled c svc
      = (ISSET svc.runlevels c.runlevel && decide (svc.block = .SVC_BLOCK_NONE)) := by
  unfold service_enabled svc_in_runlevel
  by_cases h1 : ISSET svc.runlevels c.runlevel = true <;>
    by_cases h2 : svc.block = .SVC_BLOCK_NONE <;> simp [h1, h2]

theorem service_stop_fst (c : ctx) (svc : svc_t) (w : world) :
    (service_stop c svc w).1 = svc := by
  unfold service_stop
  split
  · rfl
  · split <;> rfl

theorem service_restart_fst (c : ctx) (svc : svc_t) (w : world) :
    (service_restart c svc w).1 = svc ∨ (service_restart c svc w).1 = { svc with pid := 0 } := by
  unfold service_restart
  split
  · exact Or.inl rfl
  · split
    · exact Or.inl rfl
    · split
      · exact Or.inr rfl
      · exact Or.inl rfl

theorem service_restart_state (c : ctx) (svc : svc_t) (w : world) :
    (service_restart c svc w).1.state = svc.state := by
  rcases service_restart_fst c svc w with h | h <;> rw [h]

theorem service_start_cases (c : ctx) (svc : svc_t) (w : world) :
    service_start c svc w
        = ({ svc with block := .SVC_BLOCK_MISSING }, { w with starts := w.starts + 1 }, 1) ∨
    service_start c svc w = (svc, { w with starts := w.starts + 1 }, 1) ∨
    service_start c svc w
        = ({ svc with pid := (c.start w.starts).fork_pid },
           { trace := w.trace ++ [event.fork (c.start w.starts).fork_pid],
             starts := w.starts + 1 }, 0) := by
  unfold service_start
  simp only
  split
  · exact Or.inl rfl
  · split
    · exact Or.inr (Or.inl rfl)
    · split
      · exact Or.inr (Or.inl rfl)
      · split
        · exact Or.inr (Or.inl rfl)
        · exact Or.inr (Or.inr rfl)

/-! ## Termination of the restart loop -/

theorem step_rank_le (c : ctx) (svc : svc_t) : step_rank c svc ≤ 5 := by
  unfold step_rank
  split <;> (try split) <;> omega

theorem step_rank_running (c : ctx) (svc : svc_t) (w : world)
    (hs : svc.state = .SVC_RUNNING_STATE)
    (h : (service_step_once c svc w).1.state ≠ svc.state) :
    step_rank c (service_step_once c svc w).1 < step_rank c svc := by
  simp only [service_step_once, hs, service_stop_fst, service_enabled_eq, step_rank] at h ⊢
  by_cases hrl : ISSET svc.runlevels c.runlevel = true <;>
  by_cases hb : svc.block = .SVC_BLOCK_NONE <;>
  by_cases hp : svc.pid = 0 <;>
  by_cases hh : svc.sighup = true <;>
  by_cases hd : svc.dirty = 0 <;>
  rcases hc : c.cond_get_agg svc.cond with _ | _ | _ <;>
  simp [hrl, hb, hp, hc, hh, hd, hs, cond_state.toNat, send_kill, svc_is_changed,
    service_restart_state] at h ⊢

theorem step_rank_ready (c : ctx) (svc : svc_t) (w : world)
    (hs : svc.state = .SVC_READY_STATE)
    (h : (service_step_once c svc w).1.state ≠ svc.state) :
    step_rank c (service_step_once c svc w).1 < step_rank c svc := by
  simp only [service_step_once, hs, service_enabled_eq, step_rank] at h ⊢
  by_cases hrl : ISSET svc.runlevels c.runlevel = true
  swap
  · simp [hrl]
  by_cases hb : svc.block = .SVC_BLOCK_NONE
  swap
  · simp [hrl, hb]
  by_cases hc : c.cond_get_agg svc.cond = .COND_ON
  swap
  · simp [hrl, hb, hc, hs] at h
  by_cases hr : RESPAWN_MAX ≤ svc.restart_counter
  · simp [hrl, hb, hc, hr]
  simp only [hrl, hb, hc, hr, ge_iff_le] at h ⊢
  rcases service_start_cases c svc w with h1 | h1 | h1
  · simp [h1, hs] at h
  · simp [h1, hs] at h
  · by_cases hp : (c.start w.starts).fork_pid = 0
    · simp [h1, hs, hp] at h
    · rcases ht : svc.type with _ | _ | _ | _ | _ <;>
        simp [h1, hs, hp, ht, hrl, hb, hc] at h ⊢

theorem step_rank_other (c : ctx) (svc : svc_t) (w : world)
    (hs : svc.state ≠ .SVC_READY_STATE) (hs2 : svc.state ≠ .SVC_RUNNING_STATE)
    (h : (service_step_once c svc w).1.state ≠ svc.state) :
    step_rank c (service_step_once c svc w).1 < step_rank c svc := by
  rcases hst : svc.state with _ | _ | _ | _ | _ | _ | _ <;>
  simp only [service_step_once, hst, service_enabled_eq, step_rank, service_stop_fst] at h ⊢ <;>
  by_cases hrl : ISSET svc.runlevels c.runlevel = true <;>
  by_cases hb : svc.block = .SVC_BLOCK_NONE <;>
  by_cases hp : svc.pid = 0 <;>
  by_cases hd : svc.dirty = 0 <;>
  rcases hc : c.cond_get_agg svc.cond with _ | _ | _ <;>
  simp [hrl, hb, hc, hs, hp, hd, hst, svc_is_changed, send_kill] at h ⊢ <;>
  simp_all

/-- Every pass of `service_step` that changes the state lowers the rank. -/
theorem step_rank_decreases (c : ctx) (svc : svc_t) (w : world)
    (h : (service_step_once c svc w).1.state ≠ svc.state) :
    step_rank c (service_step_once c svc w).1 < step_rank c svc := by
  by_cases h1 : svc.state = .SVC_READY_STATE
  · exact step_rank_ready c svc w h1 h
  · by_cases h2 : svc.state = .SVC_RUNNING_STATE
    · exact step_rank_running c svc w h2 h
    · exact step_rank_other c svc w h1 h2 h

theorem service_step_fuel_of_rank (c : ctx) :
    ∀ (n : Nat) (svc : svc_t) (w : world), step_rank c svc < n →
      ∃ r, service_step_fuel n c svc w = some r := by
  intro n
  induction n with
  | zero => intro svc w h; omega
  | succ n ih =>
    intro svc w h
    unfold service_step_fuel
    by_cases hst : (service_step_once c svc w).1.state ≠ svc.state
    · rw [if_pos hst]
      apply ih
      have := step_rank_decreases c svc w hst
      omega
    · rw [if_neg hst]
      exact ⟨_, rfl⟩

/-- Six passes are enough for `service_step` to come to rest, whatever the
record and the context. -/
theorem service_step_fuel_six (c : ctx) (svc : svc_t) (w : world) :
    ∃ r, service_step_fuel 6 c svc w = some r :=
  service_step_fuel_of_rank c 6 svc w (by have := step_rank_le c svc; omega)

theorem service_step_eq (c : ctx) (svc : svc_t) (w : world) :
    service_step_fuel 6 c svc w = some (service_step c svc w) := by
  obtain ⟨r, hr⟩ := service_step_fuel_six c svc w
  simp [service_step, hr]

/-- Invariant rule for the loop: a property that holds at entry and is kept
by every pass holds of the last pass, which leaves the state alone. -/
theorem service_step_fuel_last (c : ctx) (P : svc_t → world → Prop)
    (hP : ∀ s v, P s v → (service_step_once c s v).1.state ≠ s.state →
      P (service_step_once c s v).1 (service_step_once c s v).2) :
    ∀ (n : Nat) (svc : svc_t) (w : world) (r : svc_t × world), P svc w →
      service_step_fuel n c svc w = some r →
      ∃ s v, P s v ∧ service_step_once c s v = r ∧ r.1.state = s.state := by
  intro n
  induction n with
  | zero => intro svc w r _ h; simp [service_step_fuel] at h
  | succ n ih =>
    intro svc w r h0 h
    unfold service_step_fuel at h
    by_cases hst : (service_step_once c svc w).1.state ≠ svc.state
    · rw [if_pos hst] at h
      exact ih _ _ r (hP svc w h0 hst) h
    · rw [if_neg hst, Option.some.injEq] at h
      refine ⟨svc, w, h0, h, ?_⟩
      rw [← h]
      exact not_not.mp hst

theorem service_step_last (c : ctx) (P : svc_t → world → Prop)
    (hP : ∀ s v, P s v → (service_step_once c s v).1.state ≠ s.state →
      P (service_step_once c s v).1 (service_step_once c s v).2)
    (svc : svc_t) (w : world) (h0 : P svc w) :
    ∃ s v, P s v ∧ service_step_once c s v = service_step c svc w ∧
      (service_step c svc w).1.state = s.state :=
  service_step_fuel_last c P hP 6 svc w _ h0 (service_step_eq c svc w)

/-- Invariant rule for `service_step`: a property kept by every pass. -/
theorem service_step_inv (c : ctx) (P : svc_t → world → Prop)
    (hP : ∀ s v, P s v → P (service_step_once c s v).1 (service_step_once c s v).2)
    (svc : svc_t) (w : world) (h0 : P svc w) :
    P (service_step c svc w).1 (service_step c svc w).2 := by
  obtain ⟨s, v, hsv, he, _⟩ := service_step_last c P (fun s v h _ => hP s v h) svc w h0
  rw [← he]
  exact hP s v hsv

/-! ## Single passes and how they chain -/

theorem service_step_fuel_step (n : Nat) (c : ctx) (svc : svc_t) (w : world)
    (h : (service_step_once c svc w).1.state ≠ svc.state) :
    service_step_fuel (n + 1) c svc w
      = service_step_fuel n c (service_step_once c svc w).1 (service_step_once c svc w).2 := by
  rw [service_step_fuel, if_pos h]

theorem service_step_fuel_stop (n : Nat) (c : ctx) (svc : svc_t) (w : world)
    (h : (service_step_once c svc w).1.state = svc.state) :
    service_step_fuel (n + 1) c svc w = some (service_step_once c svc w) := by
  rw [service_step_fuel, if_neg (not_not.mpr h)]

theorem service_step_of_fuel (c : ctx) (svc : svc_t) (w : world) (r : svc_t × world)
    (h : service_step_fuel 6 c svc w = some r) : service_step c svc w = r := by
  simp [service_step, h]

theorem service_step_fuel_mono (c : ctx) :
    ∀ (n : Nat) (svc : svc_t) (w : world) (r : svc_t × world),
      service_step_fuel n c svc w = some r → service_step_fuel (n + 1) c svc w = some r := by
  intro n
  induction n with
  | zero => intro svc w r h; simp [service_step_fuel] at h
  | succ n ih =>
    intro svc w r h
    by_cases hst : (service_step_once c svc w).1.state ≠ svc.state
    · rw [service_step_fuel_step _ _ _ _ hst] at h ⊢
      exact ih _ _ _ h
    · rw [service_step_fuel_stop _ _ _ _ (not_not.mp hst)] at h ⊢
      exact h

/-- A pass that changes the state is followed by the rest of the step. -/
theorem service_step_next_eq (c : ctx) (svc s' : svc_t) (w w' : world)
    (h1 : service_step_once c svc w = (s', w')) (h2 : s'.state ≠ svc.state) :
    service_step c svc w = service_step c s' w' := by
  have h := service_step_eq c svc w
  rw [service_step_fuel_step _ _ _ _ (by rw [h1]; exact h2), h1] at h
  exact (service_step_of_fuel c s' w' _ (service_step_fuel_mono c 5 _ _ _ h)).symm

/-- A pass that leaves the state alone ends the step. -/
theorem service_step_rest_eq (c : ctx) (svc s' : svc_t) (w w' : world)
    (h1 : service_step_once c svc w = (s', w')) (h2 : s'.state = svc.state) :
    service_step c svc w = (s', w') := by
  apply service_step_of_fuel
  rw [service_step_fuel_stop _ _ _ _ (by rw [h1]; exact h2), h1]

theorem service_start_fork (c : ctx) (svc : svc_t) (w : world)
    (ht : svc.type ≠ .SVC_TYPE_INETD) (hf : c.fexist svc.cmd = true ∨ svc.inetd_cmd = true)
    (hn : is_norespawn c = false) :
    service_start c svc w
      = ({ svc with pid := (c.start w.starts).fork_pid },
         { trace := w.trace ++ [event.fork (c.start w.starts).fork_pid],
           starts := w.starts + 1 }, 0) := by
  have hsi : svc_is_inetd svc = false := by simp [svc_is_inetd, ht]
  have hf2 : (!c.fexist svc.cmd && !svc.inetd_cmd) = false := by
    rcases hf with h | h <;> simp [h]
  simp [service_start, hsi, hn, hf2]

theorem once_halted_enabled (c : ctx) (svc : svc_t) (w : world)
    (hs : svc.state = .SVC_HALTED_STATE) (he : service_enabled c svc = true) :
    service_step_once c svc w
      = ({ svc with restart_counter := 0, state := .SVC_READY_STATE }, w) := by
  simp [service_step_once, hs, he]

theorem once_halted_disabled (c : ctx) (svc : svc_t) (w : world)
    (hs : svc.state = .SVC_HALTED_STATE) (he : service_enabled c svc = false) :
    service_step_once c svc w = ({ svc with restart_counter := 0 }, w) := by
  simp [service_step_once, hs, he]

theorem once_ready_crashing (c : ctx) (svc : svc_t) (w : world)
    (hs : svc.state = .SVC_READY_STATE) (he : service_enabled c svc = true)
    (hc : c.cond_get_agg svc.cond = .COND_ON) (hr : RESPAWN_MAX ≤ svc.restart_counter) :
    service_step_once c svc w
      = ({ svc with block := .SVC_BLOCK_CRASHING, state := .SVC_HALTED_STATE }, w) := by
  simp [service_step_once, hs, he, hc, hr]

theorem once_ready_start (c : ctx) (svc : svc_t) (w : world)
    (hs : svc.state = .SVC_READY_STATE) (he : service_enabled c svc = true)
    (hc : c.cond_get_agg svc.cond = .COND_ON) (hr : svc.restart_counter < RESPAWN_MAX)
    (ht : svc.type = .SVC_TYPE_SERVICE) (hf : c.fexist svc.cmd = true ∨ svc.inetd_cmd = true)
    (hn : is_norespawn c = false) (hp : (c.start w.starts).fork_pid ≠ 0) :
    service_step_once c svc w
      = ({ svc with pid := (c.start w.starts).fork_pid, dirty := 0,
                    state := .SVC_RUNNING_STATE },
         { trace := w.trace ++ [event.fork (c.start w.starts).fork_pid],
           starts := w.starts + 1 }) := by
  have hst := service_start_fork c svc w (by simp [ht]) hf hn
  have hr2 : ¬ RESPAWN_MAX ≤ svc.restart_counter := by omega
  simp [service_step_once, hs, he, hc, hr2, hst, hp, ht]

theorem once_running_crashed (c : ctx) (svc : svc_t) (w : world)
    (hs : svc.state = .SVC_RUNNING_STATE) (he : service_enabled c svc = true)
    (hp : svc.pid = 0) :
    service_step_once c svc w
      = ({ svc with restart_counter := svc.restart_counter + 1, state := .SVC_READY_STATE },
         w) := by
  simp [service_step_once, hs, he, hp]

theorem once_running_stable (c : ctx) (svc : svc_t) (w : world)
    (hs : svc.state = .SVC_RUNNING_STATE) (he : service_enabled c svc = true)
    (hp : svc.pid ≠ 0) (hc : c.cond_get_agg svc.cond = .COND_ON) (hd : svc.dirty = 0) :
    service_step_once c svc w = (svc, w) := by
  simp [service_step_once, hs, he, hp, hc, hd, svc_is_changed, cond_state.toNat]

/-! ## Crash loop -/

theorem good_ctx_enabled (c : ctx) (svc : svc_t) (hg : good_ctx c svc)
    (hb : svc.block = .SVC_BLOCK_NONE) : service_enabled c svc = true := by
  simp [service_enabled_eq, hg.1, hb]

/-- First start of a halted service in a good context. -/
theorem step_halted_start (c : ctx) (svc : svc_t) (w : world)
    (hs : svc.state = .SVC_HALTED_STATE) (ht : svc.type = .SVC_TYPE_SERVICE)
    (hb : svc.block = .SVC_BLOCK_NONE) (hg : good_ctx c svc) :
    service_step c svc w
      = ({ svc with restart_counter := 0, pid := (c.start w.starts).fork_pid, dirty := 0,
                    state := .SVC_RUNNING_STATE },
         { trace := w.trace ++ [event.fork (c.start w.starts).fork_pid],
           starts := w.starts + 1 }) := by
  have he := good_ctx_enabled c svc hg hb
  obtain ⟨hrl, hc, hf, hn, hp⟩ := hg
  have hp0 : (c.start w.starts).fork_pid ≠ 0 := by have := hp w.starts; omega
  have e1 := service_step_next_eq c svc _ w _ (once_halted_enabled c svc w hs he) (by simp [hs])
  have e2 := service_step_next_eq c { svc with restart_counter := 0, state := .SVC_READY_STATE }
    _ w _ (once_ready_start c _ w rfl he hc (by simp [RESPAWN_MAX]) ht (Or.inl hf) hn hp0)
    (by simp)
  have e3 := service_step_rest_eq c
    { svc with restart_counter := 0, pid := (c.start w.starts).fork_pid, dirty := 0,
               state := .SVC_RUNNING_STATE } _
    { trace := w.trace ++ [event.fork (c.start w.starts).fork_pid], starts := w.starts + 1 } _
    (once_running_stable c _ _ rfl he hp0 hc rfl) rfl
  exact e1.trans (e2.trans e3)

/-- Reaping a running service that has crashed fewer than nine times before:
it is started again. -/
theorem reap_running_respawn (c : ctx) (svc : svc_t) (w : world)
    (hs : svc.state = .SVC_RUNNING_STATE) (ht : svc.type = .SVC_TYPE_SERVICE)
    (hb : svc.block = .SVC_BLOCK_NONE) (hg : good_ctx c svc)
    (hr : svc.restart_counter + 1 < RESPAWN_MAX) :
    service_reap c svc w
      = ({ svc with restart_counter := svc.restart_counter + 1,
                    pid := (c.start w.starts).fork_pid, dirty := 0 },
         { trace := w.trace ++ [event.fork (c.start w.starts).fork_pid],
           starts := w.starts + 1 }) := by
  have he := good_ctx_enabled c svc hg hb
  obtain ⟨hrl, hc, hf, hn, hp⟩ := hg
  have hp0 : (c.start w.starts).fork_pid ≠ 0 := by have := hp w.starts; omega
  have e1 := service_step_next_eq c { svc with pid := 0 } _ w _
    (once_running_crashed c _ w hs he rfl) (by simp [hs])
  have e2 := service_step_next_eq c
    { svc with pid := 0, restart_counter := svc.restart_counter + 1, state := .SVC_READY_STATE }
    _ w _ (once_ready_start c _ w rfl he hc hr ht (Or.inl hf) hn hp0) (by simp)
  have e3 := service_step_rest_eq c
    { svc with restart_counter := svc.restart_counter + 1, pid := (c.start w.starts).fork_pid,
               dirty := 0, state := .SVC_RUNNING_STATE } _
    { trace := w.trace ++ [event.fork (c.start w.starts).fork_pid], starts := w.starts + 1 } _
    (once_running_stable c _ _ rfl he hp0 hc rfl) rfl
  have e := e1.trans (e2.trans e3)
  unfold service_reap
  rw [e, ← hs]

/-- Reaping a running service for the tenth time: it is quarantined. -/
theorem reap_running_quarantine (c : ctx) (svc : svc_t) (w : world)
    (hs : svc.state = .SVC_RUNNING_STATE)
    (hb : svc.block = .SVC_BLOCK_NONE) (hg : good_ctx c svc)
    (hr : RESPAWN_MAX ≤ svc.restart_counter + 1) :
    service_reap c svc w
      = ({ svc with pid := 0, restart_counter := 0, block := .SVC_BLOCK_CRASHING,
                    state := .SVC_HALTED_STATE }, w) := by
  have he := good_ctx_enabled c svc hg hb
  obtain ⟨hrl, hc, hf, hn, hp⟩ := hg
  have e1 := service_step_next_eq c { svc with pid := 0 } _ w _
    (once_running_crashed c _ w hs he rfl) (by simp [hs])
  have e2 := service_step_next_eq c
    { svc with pid := 0, restart_counter := svc.restart_counter + 1, state := .SVC_READY_STATE }
    _ w _ (once_ready_crashing c _ w rfl he hc hr) (by simp)
  have e3 := service_step_rest_eq c
    { svc with pid := 0, restart_counter := svc.restart_counter + 1,
               block := .SVC_BLOCK_CRASHING, state := .SVC_HALTED_STATE } _ w _
    (once_halted_disabled c _ _ rfl (by simp [service_enabled_eq])) rfl
  exact e1.trans (e2.trans e3)

theorem fork_count_append (a b : List event) :
    fork_count (a ++ b) = fork_count a + fork_count b := by
  induction a with
  | nil => simp [fork_count]
  | cons e t ih => cases e <;> simp [fork_count, ih]; omega

theorem reaps_cons (c : ctx) (cs : List ctx) (p : svc_t × world) :
    reaps (c :: cs) p = reaps cs (service_reap c p.1 p.2) := rfl

theorem reaps_crash_loop :
    ∀ (cs : List ctx) (s : svc_t) (v : world),
      cs ≠ [] → (∀ c ∈ cs, good_ctx c s) → s.state = .SVC_RUNNING_STATE →
      s.type = .SVC_TYPE_SERVICE → s.block = .SVC_BLOCK_NONE →
      s.restart_counter + cs.length = 10 →
      (reaps cs (s, v)).1.state = .SVC_HALTED_STATE ∧
      (reaps cs (s, v)).1.block = .SVC_BLOCK_CRASHING ∧
      (fork_count (reaps cs (s, v)).2.trace : Int) + 1 + s.restart_counter
        = fork_count v.trace + 10 := by
  intro cs
  induction cs with
  | nil => intro s v h; exact absurd rfl h
  | cons c rest ih =>
    intro s v _ hg hs ht hb hlen
    have hgc : good_ctx c s := hg c (List.mem_cons_self _ _)
    rw [reaps_cons]
    by_cases hrest : rest = []
    · subst hrest
      simp only [List.length_singleton, Nat.cast_one] at hlen
      rw [reap_running_quarantine c s v hs hb hgc (by simp [RESPAWN_MAX]; omega)]
      refine ⟨rfl, rfl, ?_⟩
      simp only [reaps, List.foldl_nil]
      omega
    · simp only [List.length_cons, Nat.cast_add, Nat.cast_one] at hlen
      rw [reap_running_respawn c s v hs ht hb hgc (by simp [RESPAWN_MAX]; have : 0 < rest.length := List.length_pos.mpr hrest; omega)]
      have := ih { s with restart_counter := s.restart_counter + 1,
                          pid := (c.start v.starts).fork_pid, dirty := 0 }
        { trace := v.trace ++ [event.fork (c.start v.starts).fork_pid], starts := v.starts + 1 }
        hrest (fun c' hc' => hg c' (List.mem_cons_of_mem _ hc')) hs ht hb (by simp only; omega)
      refine ⟨this.1, this.2.1, ?_⟩
      have h3 := this.2.2
      simp only [fork_count_append, fork_count] at h3
      push_cast at h3
      omega

/-- C1 (crash-loop quarantine, scenario S2): a Service-type record in Halted
with block None (whatever its restart_counter, 0 included), stepped once and then reaped ten times,
each time in a context where it is in the runlevel, its condition is on and
`service_start` succeeds with a pid > 1, ends in Halted with block Crashing,
and exactly ten forks have been made: there is no eleventh. -/
theorem crash_loop_quarantine (svc : svc_t) (w : world) (c0 : ctx) (cs : List ctx)
    (hs : svc.state = .SVC_HALTED_STATE) (ht : svc.type = .SVC_TYPE_SERVICE)
    (hb : svc.block = .SVC_BLOCK_NONE)
    (h0 : good_ctx c0 svc) (hcs : ∀ c ∈ cs, good_ctx c svc) (hlen : cs.length = 10) :
    (reaps cs (service_step c0 svc w)).1.state = .SVC_HALTED_STATE ∧
    (reaps cs (service_step c0 svc w)).1.block = .SVC_BLOCK_CRASHING ∧
    fork_count (reaps cs (service_step c0 svc w)).2.trace = fork_count w.trace + 10 := by
  rw [step_halted_start c0 svc w hs ht hb h0]
  have hne : cs ≠ [] := by intro h; rw [h] at hlen; simp at hlen
  have := reaps_crash_loop cs
    { svc with restart_counter := 0, pid := (c0.start w.starts).fork_pid, dirty := 0,
               state := .SVC_RUNNING_STATE }
    { trace := w.trace ++ [event.fork (c0.start w.starts).fork_pid], starts := w.starts + 1 }
    hne hcs rfl ht hb (by simp [hlen])
  refine ⟨this.1, this.2.1, ?_⟩
  have h3 := this.2.2
  simp only [fork_count_append, fork_count] at h3
  push_cast at h3
  omega

theorem good_ctx_calm_flaky : good_ctx calm flaky := by
  refine ⟨by decide, rfl, by decide, by decide, ?_⟩
  intro n
  simp only [calm]
  omega

theorem crash_loop_quarantine_witness :
    (reaps (List.replicate 10 calm) (service_step calm flaky quiet)).1.state
        = .SVC_HALTED_STATE ∧
    (reaps (List.replicate 10 calm) (service_step calm flaky quiet)).1.block
        = .SVC_BLOCK_CRASHING ∧
    fork_count (reaps (List.replicate 10 calm) (service_step calm flaky quiet)).2.trace
        = fork_count quiet.trace + 10 :=
  crash_loop_quarantine flaky quiet calm (List.replicate 10 calm) rfl rfl rfl
    good_ctx_calm_flaky (fun c hc => by rw [List.eq_of_mem_replicate hc]; exact good_ctx_calm_flaky)
    (by simp)

/-! ## State and pid -/

/-- C2 (state/pid invariant 1) fails on the code: when `fork` fails,
`service_start` stores -1 in `pid` and returns 0, the test `err || !svc->pid`
lets it pass, and the freshly registered service ends the step in Running with
pid -1. -/
theorem fork_failure_running :
    state_pid_ok flaky ∧
    (service_step nofork flaky quiet).1.state = .SVC_RUNNING_STATE ∧
    (service_step nofork flaky quiet).1.pid = -1 ∧
    (service_step nofork flaky quiet).1.restart_counter = 0 := by
  decide

/-- C5 (a Task is one-shot) fails on the code: the step that follows the reap
of a started task takes it from Stopping through Halted and Ready and forks
it again. -/
theorem task_respawns :
    job_started.type = .SVC_TYPE_TASK ∧ job_started.state = .SVC_STOPPING_STATE ∧
    (service_reap calm job_started quiet).2.trace = [event.fork 100] ∧
    (service_reap calm job_started quiet).1.state = .SVC_STOPPING_STATE ∧
    (service_reap calm job_started quiet).1.pid = 100 := by
  decide

/-- C3 as stated fails on the code, in each of the three ways it lists: a
Run-type record reaches Done holding the pid of its child, a running service
stopped because its condition went off rests in Ready with its pid, and a
paused service that is no longer allowed is put in Halted with its pid. -/
theorem state_pid_rest_counterexample :
    (state_pid_ok mount_fs ∧
      (service_step calm mount_fs quiet).1.state = .SVC_DONE_STATE ∧
      (service_step calm mount_fs quiet).1.pid = 100) ∧
    (state_pid_ok syslogd_running ∧
      (service_step calm_off syslogd_running quiet).1.state = .SVC_READY_STATE ∧
      (service_step calm_off syslogd_running quiet).1.pid = 55) ∧
    (state_pid_ok syslogd_waiting ∧
      (service_step calm_single syslogd_waiting quiet).1.state = .SVC_HALTED_STATE ∧
      (service_step calm_single syslogd_waiting quiet).1.pid = 55) := by
  decide

theorem rest_inv_once_ready (w0 : world) (c : ctx) (s : svc_t) (v : world)
    (hst : s.state = .SVC_READY_STATE) (h : rest_inv w0 c s v) :
    rest_inv w0 c (service_step_once c s v).1 (service_step_once c s v).2 := by
  obtain ⟨hty, h1, h2, h3, h4⟩ := h
  have hp : s.pid = 0 := h1 (Or.inr (Or.inl hst))
  unfold rest_inv
  simp only [service_step_once, hst, service_enabled_eq]
  by_cases hrl : ISSET s.runlevels c.runlevel = true
  swap
  · simp [hrl, hty, hp, h4]
  by_cases hb : s.block = .SVC_BLOCK_NONE
  swap
  · simp [hrl, hb, hty, hp, h4]
  by_cases hc : c.cond_get_agg s.cond = .COND_ON
  swap
  · simp [hrl, hb, hc, hst, hty, hp, h4]
  by_cases hr : RESPAWN_MAX ≤ s.restart_counter
  · simp [hrl, hb, hc, hr, hty, hp, h4]
  simp only [hrl, hb, hc, hr, ge_iff_le]
  rcases service_start_cases c s v with e | e | e
  · simp [e, hst, hty, hp]; omega
  · simp [e, hst, hty, hp]; omega
  · by_cases hf : (c.start v.starts).fork_pid = 0
    · simp [e, hst, hf, hty]; omega
    · rcases ht : s.type with _ | _ | _ | _ | _
      · exact absurd ht hty
      all_goals simp [e, hst, hf, ht, hrl, hb, hc]
      all_goals omega

theorem rest_inv_once_other (w0 : world) (c : ctx) (s : svc_t) (v : world)
    (hst : s.state ≠ .SVC_READY_STATE) (h : rest_inv w0 c s v) :
    rest_inv w0 c (service_step_once c s v).1 (service_step_once c s v).2 := by
  obtain ⟨hty, h1, h2, h3, h4⟩ := h
  unfold rest_inv
  rcases hs : s.state with _ | _ | _ | _ | _ | _ | _ <;>
  simp only [hs, service_step_once, service_stop_fst, service_enabled_eq] at h1 h2 h3 hst ⊢ <;>
  simp at h1 h2 h3 hst ⊢
  · -- halted
    by_cases hrl : ISSET s.runlevels c.runlevel = true <;>
      by_cases hb : s.block = .SVC_BLOCK_NONE <;> simp [hrl, hb, hty, h1, h4]
  · -- running
    obtain ⟨⟨a, b⟩, c1, d, e⟩ := h3
    simp [a, b, c1, d, e, hs, hty, h4, svc_is_changed, cond_state.toNat]
  · -- stopping
    by_cases hp : s.pid = 0 <;> simp [hp, hty, h4, hs]
  · -- waiting
    by_cases hrl : ISSET s.runlevels c.runlevel = true <;>
      by_cases hb : s.block = .SVC_BLOCK_NONE <;>
      simp [hrl, hb, hty, h1, h4, send_kill, service_stop]
  · -- paused
    simp [hs, hty, h4]
  · -- done
    by_cases hd : s.dirty = 0 <;> simp [hd, hty, h4, hs, svc_is_changed]
    · rcases h2 with h2 | h2
      · exact Or.inl h2
      · exact Or.inr h2.2
    · rcases h2 with h2 | h2
      · exact h2
      · exact absurd h2.1 hd

theorem rest_inv_once (w0 : world) (c : ctx) (s : svc_t) (v : world)
    (h : rest_inv w0 c s v) :
    rest_inv w0 c (service_step_once c s v).1 (service_step_once c s v).2 := by
  by_cases hst : s.state = .SVC_READY_STATE
  · exact rest_inv_once_ready w0 c s v hst h
  · exact rest_inv_once_other w0 c s v hst h

/-! ## Condition in flux -/

theorem once_running_flux (c : ctx) (svc : svc_t) (w : world)
    (hs : svc.state = .SVC_RUNNING_STATE) (he : service_enabled c svc = true)
    (hp : svc.pid ≠ 0) (hc : c.cond_get_agg svc.cond = .COND_FLUX) (hh : svc.sighup = true) :
    service_step_once c svc w
      = ({ svc with state := .SVC_WAITING_STATE },
         { w with trace := w.trace ++ [event.kill svc.pid .SIGSTOP] }) := by
  simp [service_step_once, hs, he, hp, hc, hh, send_kill]

theorem once_waiting_flux (c : ctx) (svc : svc_t) (w : world)
    (hs : svc.state = .SVC_WAITING_STATE) (he : service_enabled c svc = true)
    (hp : svc.pid ≠ 0) (hc : c.cond_get_agg svc.cond = .COND_FLUX) :
    service_step_once c svc w = (svc, w) := by
  simp [service_step_once, hs, he, hp, hc]

/-- C6 as stated fails on the code: a running, enabled service with a live
pid that does not take `SIGHUP` is not paused when its condition is in flux;
it is sent `SIGTERM` and left in Ready. -/
theorem flux_pause_counterexample :
    syslogd_running.state = .SVC_RUNNING_STATE ∧
    service_enabled calm_flux syslogd_running = true ∧
    1 < syslogd_running.pid ∧
    calm_flux.cond_get_agg syslogd_running.cond = .COND_FLUX ∧
    (service_step calm_flux syslogd_running quiet).1.state = .SVC_READY_STATE ∧
    (service_step calm_flux syslogd_running quiet).2.trace = [event.kill 55 .SIGTERM] := by
  decide

/-! ## When a record is started -/

theorem service_stop_starts (c : ctx) (svc : svc_t) (w : world) :
    (service_stop c svc w).2.1.starts = w.starts := by
  unfold service_stop
  split
  · rfl
  · split <;> rfl

theorem service_stop_forks (c : ctx) (svc : svc_t) (w : world) :
    fork_count (service_stop c svc w).2.1.trace = fork_count w.trace := by
  unfold service_stop
  split
  · rfl
  · split
    · rfl
    · simp [fork_count_append, fork_count]

theorem service_restart_starts (c : ctx) (svc : svc_t) (w : world) :
    (service_restart c svc w).2.1.starts = w.starts := by
  unfold service_restart
  split
  · rfl
  · split
    · rfl
    · split <;> rfl

theorem service_restart_forks (c : ctx) (svc : svc_t) (w : world) :
    fork_count (service_restart c svc w).2.1.trace = fork_count w.trace := by
  unfold service_restart
  split
  · rfl
  · split
    · rfl
    · split
      · rfl
      · simp [fork_count_append, fork_count]

theorem send_kill_starts (svc : svc_t) (sig : signal_t) (w : world) :
    (send_kill svc sig w).starts = w.starts := rfl

theorem send_kill_forks (svc : svc_t) (sig : signal_t) (w : world) :
    fork_count (send_kill svc sig w).trace = fork_count w.trace := by
  simp [send_kill, fork_count_append, fork_count]

/-- What one pass does to the world: either it neither enters `service_start`
nor forks, or the record was in Ready, enabled, with its condition on and
fewer than `RESPAWN_MAX` restarts, and `service_start` was entered once. -/
theorem once_world (c : ctx) (s : svc_t) (v : world) :
    ((service_step_once c s v).2.starts = v.starts ∧
      fork_count (service_step_once c s v).2.trace = fork_count v.trace) ∨
    (s.state = .SVC_READY_STATE ∧ service_enabled c s = true ∧
      c.cond_get_agg s.cond = .COND_ON ∧ s.restart_counter < RESPAWN_MAX ∧
      (service_step_once c s v).2.starts = v.starts + 1 ∧
      (fork_count (service_step_once c s v).2.trace = fork_count v.trace ∨
        fork_count (service_step_once c s v).2.trace = fork_count v.trace + 1)) := by
  by_cases hst : s.state = .SVC_READY_STATE
  · simp only [service_step_once, hst, service_enabled_eq]
    by_cases hrl : ISSET s.runlevels c.runlevel = true
    swap
    · simp [hrl]
    by_cases hb : s.block = .SVC_BLOCK_NONE
    swap
    · simp [hrl, hb]
    by_cases hc : c.cond_get_agg s.cond = .COND_ON
    swap
    · simp [hrl, hb, hc]
    by_cases hr : RESPAWN_MAX ≤ s.restart_counter
    · simp [hrl, hb, hc, hr]
    right
    simp only [hrl, hb, hc, hr, ge_iff_le]
    rcases service_start_cases c s v with e | e | e
    · simp [e]; omega
    · simp [e]; omega
    · by_cases hf : (c.start v.starts).fork_pid = 0
      · simp [e, hf, fork_count_append, fork_count]; omega
      · rcases ht : s.type with _ | _ | _ | _ | _ <;>
          simp [e, hf, ht, fork_count_append, fork_count] <;> omega
  · left
    rcases hs : s.state with _ | _ | _ | _ | _ | _ | _ <;>
    simp only [hs, service_step_once, service_stop_fst, service_enabled_eq] at hst ⊢
    · split <;> simp
    · simp at hst
    · by_cases hrl : ISSET s.runlevels c.runlevel = true <;>
      by_cases hb : s.block = .SVC_BLOCK_NONE <;>
      by_cases hp : s.pid = 0 <;>
      by_cases hh : s.sighup = true <;>
      by_cases hd : s.dirty = 0 <;>
      rcases hc : c.cond_get_agg s.cond with _ | _ | _ <;>
      simp [hrl, hb, hp, hc, hh, hd, cond_state.toNat, svc_is_changed, service_stop_starts,
        service_stop_forks, service_restart_starts, service_restart_forks, send_kill_starts,
        send_kill_forks]
    · split <;> simp
    · by_cases hrl : ISSET s.runlevels c.runlevel = true <;>
      by_cases hb : s.block = .SVC_BLOCK_NONE <;>
      by_cases hp : s.pid = 0 <;>
      rcases hc : c.cond_get_agg s.cond with _ | _ | _ <;>
      simp [hrl, hb, hp, hc, service_stop_starts, service_stop_forks, send_kill_starts,
        send_kill_forks]
    · simp
    · split <;> simp

theorem once_disabled (c : ctx) (s : svc_t) (v : world)
    (he : service_enabled c s = false) :
    service_enabled c (service_step_once c s v).1 = false := by
  rw [service_enabled_eq] at he ⊢
  rcases hs : s.state with _ | _ | _ | _ | _ | _ | _ <;>
  simp only [hs, service_step_once, service_stop_fst, service_enabled_eq, he] <;>
  simp <;> (try split) <;> simpa using he

theorem pass_runs_succ (c : ctx) (svc : svc_t) (w : world) (k : Nat)
    (h0 : (service_step_once c svc w).1.state ≠ svc.state)
    (h : pass_runs c (service_step_once c svc w) k) : pass_runs c (svc, w) (k + 1) := by
  intro j hj
  cases j with
  | zero => exact h0
  | succ j => exact h j (by omega)

theorem service_step_fuel_fork (c : ctx) :
    ∀ (n : Nat) (svc : svc_t) (w : world) (r : svc_t × world),
      service_step_fuel n c svc w = some r → fork_count r.2.trace ≠ fork_count w.trace →
      ∃ k, pass_runs c (svc, w) k ∧ forks_from_ready c (passes c k (svc, w)) := by
  intro n
  induction n with
  | zero => intro svc w r h; simp [service_step_fuel] at h
  | succ n ih =>
    intro svc w r h hne
    have first : fork_count (service_step_once c svc w).2.trace ≠ fork_count w.trace →
        ∃ k, pass_runs c (svc, w) k ∧ forks_from_ready c (passes c k (svc, w)) := by
      intro hf
      refine ⟨0, fun j hj => absurd hj (Nat.not_lt_zero j), ?_⟩
      rcases once_world c svc w with h1 | ⟨a, b, d, e, f, g⟩
      · exact absurd h1.2 hf
      · exact ⟨a, b, d, e, f, by simp only [passes]; omega⟩
    by_cases hst : (service_step_once c svc w).1.state ≠ svc.state
    · rw [service_step_fuel_step _ _ _ _ hst] at h
      by_cases hf : fork_count (service_step_once c svc w).2.trace = fork_count w.trace
      · obtain ⟨k, hk1, hk2⟩ := ih _ _ r h (by rw [hf]; exact hne)
        exact ⟨k + 1, pass_runs_succ c svc w k hst hk1, hk2⟩
      · exact first hf
    · rw [service_step_fuel_stop _ _ _ _ (not_not.mp hst), Option.some.injEq] at h
      rw [← h] at hne
      exact first hne

/-- C4 (a record is started only when enabled): a record for which
`service_enabled` is false at entry goes through `service_step` without any
`service_start` or fork; and whenever a `service_step` call forks, one of the
passes it runs finds the record in Ready, enabled, with its aggregate condition
on and restart_counter < RESPAWN_MAX, and that pass forks. -/
theorem start_only_when_enabled (c : ctx) (svc : svc_t) (w : world) :
    (service_enabled c svc = false →
      (service_step c svc w).2.starts = w.starts ∧
      fork_count (service_step c svc w).2.trace = fork_count w.trace) ∧
    (fork_count (service_step c svc w).2.trace ≠ fork_count w.trace →
      ∃ k, pass_runs c (svc, w) k ∧ forks_from_ready c (passes c k (svc, w))) := by
  refine ⟨?_, ?_⟩
  · intro he
    have := service_step_inv c
      (fun s v => service_enabled c s = false ∧ v.starts = w.starts ∧
        fork_count v.trace = fork_count w.trace)
      (fun s v ⟨h1, h2, h3⟩ => by
        refine ⟨once_disabled c s v h1, ?_⟩
        rcases once_world c s v with h | h
        · exact ⟨h.1.trans h2, h.2.trans h3⟩
        · rw [h.2.1] at h1
          exact absurd h1 (by simp))
      svc w ⟨he, rfl, rfl⟩
    exact this.2
  · exact service_step_fuel_fork c 6 svc w _ (service_step_eq c svc w)

theorem start_only_when_enabled_witness :
    ((service_step calm flaky_blocked quiet).2.starts = quiet.starts ∧
      fork_count (service_step calm flaky_blocked quiet).2.trace = fork_count quiet.trace) ∧
    (∃ k, pass_runs calm (flaky, quiet) k ∧ forks_from_ready calm (passes calm k (flaky, quiet))) :=
  ⟨(start_only_when_enabled calm flaky_blocked quiet).1 (by decide),
   (start_only_when_enabled calm flaky quiet).2 (by decide)⟩

/-! ## Respawn bound -/

theorem respawn_inv_once (c : ctx) (s : svc_t) (v : world) (h : respawn_inv s) :
    respawn_inv (service_step_once c s v).1 := by
  obtain ⟨h1, h2⟩ := h
  unfold respawn_inv RESPAWN_MAX at *
  by_cases hst : s.state = .SVC_READY_STATE
  · simp only [service_step_once, hst, service_enabled_eq, RESPAWN_MAX]
    by_cases hrl : ISSET s.runlevels c.runlevel = true
    swap
    · simp [hrl, h1]
    by_cases hb : s.block = .SVC_BLOCK_NONE
    swap
    · simp [hrl, hb, h1]
    by_cases hc : c.cond_get_agg s.cond = .COND_ON
    swap
    · simp [hrl, hb, hc, hst, h1]
    by_cases hr : (10 : Int) ≤ s.restart_counter
    · simp [hrl, hb, hc, hr, h1]
    simp only [hrl, hb, hc, hr, ge_iff_le]
    rcases service_start_cases c s v with e | e | e
    · simp [e, hst]; omega
    · simp [e, hst]; omega
    · by_cases hf : (c.start v.starts).fork_pid = 0
      · simp [e, hst, hf]; omega
      · rcases ht : s.type with _ | _ | _ | _ | _ <;>
          simp [e, hst, hf, ht] <;> omega
  · rcases hs : s.state with _ | _ | _ | _ | _ | _ | _ <;>
    simp only [hs, service_step_once, service_stop_fst, service_enabled_eq] at hst h2 ⊢ <;>
    simp at h2 hst ⊢
    · split <;> simp
    · by_cases hrl : ISSET s.runlevels c.runlevel = true <;>
      by_cases hb : s.block = .SVC_BLOCK_NONE <;>
      by_cases hp : s.pid = 0 <;>
      by_cases hh : s.sighup = true <;>
      by_cases hd : s.dirty = 0 <;>
      rcases hc : c.cond_get_agg s.cond with _ | _ | _ <;>
      simp [hrl, hb, hp, hc, hh, hd, cond_state.toNat, svc_is_changed] <;>
      (try rcases service_restart_fst c s v with e | e <;> simp [e]) <;> omega
    · split <;> simp [hs] <;> omega
    · by_cases hrl : ISSET s.runlevels c.runlevel = true <;>
      by_cases hb : s.block = .SVC_BLOCK_NONE <;>
      by_cases hp : s.pid = 0 <;>
      rcases hc : c.cond_get_agg s.cond with _ | _ | _ <;>
      simp [hrl, hb, hp, hc, hs] <;> omega
    · simp [hs, h1]
    · split <;> simp [hs] <;> omega

theorem respawn_inv_act (a : action) (p : svc_t × world) (h : respawn_inv p.1) :
    respawn_inv (act a p).1 := by
  cases a with
  | step c =>
    exact service_step_inv c (fun s _ => respawn_inv s)
      (fun s v hs => respawn_inv_once c s v hs) p.1 p.2 h
  | zero_pid => exact h
  | configure _ _ _ _ _ => exact h

theorem respawn_inv_run (acts : List action) :
    ∀ p : svc_t × world, respawn_inv p.1 → respawn_inv (run acts p).1 := by
  induction acts with
  | nil => intro p h; exact h
  | cons a rest ih => intro p h; exact ih (act a p) (respawn_inv_act a p h)

/-- C10 (respawn bound): starting from a freshly registered record
(restart_counter 0; in Halted, in Waiting for inetd, or in any other state),
after any sequence of
`service_step` calls, each in a context of its own (any runlevel, any
condition value, any outcome of `service_start`), interleaved with losses of
the process (`pid` zeroed) and with rewrites of `dirty`, `block`, `runlevels`,
`sighup` and `cond`, restart_counter is at most `RESPAWN_MAX` = 10, after the
whole sequence and after every prefix of it. -/
theorem respawn_bound (svc : svc_t) (w : world) (acts : List action)
    (h0 : svc.restart_counter = 0) :
    RESPAWN_MAX = 10 ∧
    ∀ n, (run (acts.take n) (svc, w)).1.restart_counter ≤ RESPAWN_MAX := by
  refine ⟨rfl, fun n => ?_⟩
  have h : respawn_inv svc := by
    unfold respawn_inv RESPAWN_MAX
    rw [h0]
    exact ⟨by decide, fun _ => by decide⟩
  exact (respawn_inv_run (acts.take n) (svc, w) h).1

theorem respawn_bound_witness :
    RESPAWN_MAX = 10 ∧
    ∀ n, (run ((List.replicate 9 (action.step noaccept)).take n)
      (sshd_inetd, quiet)).1.restart_counter ≤ RESPAWN_MAX :=
  respawn_bound sshd_inetd quiet (List.replicate 9 (action.step noaccept)) rfl

/-! ## Hooks and the trace -/

theorem hook_count_append (h : hook_t) (a b : List event) :
    hook_count h (a ++ b) = hook_count h a + hook_count h b := by
  simp [hook_count, List.count_append]

theorem hook_count_kill (h : hook_t) (t : List event) (p : Int) (sig : signal_t) :
    hook_count h (t ++ [event.kill p sig]) = hook_count h t := by
  simp [hook_count, List.count_append]

theorem hook_count_fork (h : hook_t) (t : List event) (p : Int) :
    hook_count h (t ++ [event.fork p]) = hook_count h t := by
  simp [hook_count, List.count_append]

theorem service_stop_hooks (h : hook_t) (c : ctx) (svc : svc_t) (w : world) :
    hook_count h (service_stop c svc w).2.1.trace = hook_count h w.trace := by
  unfold service_stop
  split
  · rfl
  · split
    · rfl
    · exact hook_count_kill h _ _ _

theorem service_restart_hooks (h : hook_t) (c : ctx) (svc : svc_t) (w : world) :
    hook_count h (service_restart c svc w).2.1.trace = hook_count h w.trace := by
  unfold service_restart
  split
  · rfl
  · split
    · rfl
    · split
      · rfl
      · exact hook_count_kill h _ _ _

theorem send_kill_hooks (h : hook_t) (svc : svc_t) (sig : signal_t) (w : world) :
    hook_count h (send_kill svc sig w).trace = hook_count h w.trace :=
  hook_count_kill h _ _ _

theorem service_start_hooks (h : hook_t) (c : ctx) (svc : svc_t) (w : world) :
    hook_count h (service_start c svc w).2.1.trace = hook_count h w.trace := by
  rcases service_start_cases c svc w with e | e | e <;> rw [e]
  exact hook_count_fork h _ _

/-- A pass of `service_step` runs no hooks. -/
theorem once_hooks (h : hook_t) (c : ctx) (s : svc_t) (v : world) :
    hook_count h (service_step_once c s v).2.trace = hook_count h v.trace := by
  rcases hs : s.state with _ | _ | _ | _ | _ | _ | _ <;>
  simp only [hs, service_step_once]
  · split <;> rfl
  · split
    · rfl
    · split
      · split
        · rfl
        · split
          · exact service_start_hooks h c s v
          · split <;> exact service_start_hooks h c s v
      · rfl
  · split
    · exact service_stop_hooks h c s v
    · split
      · rfl
      · split
        · exact service_stop_hooks h c s v
        · split
          · exact send_kill_hooks h s _ v
          · split
            · split
              · exact service_restart_hooks h c s v
              · exact service_stop_hooks h c s v
            · rfl
  · split <;> rfl
  · split
    · exact (service_stop_hooks h c s _).trans (send_kill_hooks h s _ v)
    · split
      · rfl
      · split
        · exact send_kill_hooks h s _ v
        · exact (service_stop_hooks h c s _).trans (send_kill_hooks h s _ v)
        · rfl
  · split <;> rfl

theorem service_step_hooks (h : hook_t) (c : ctx) (svc : svc_t) (w : world) :
    hook_count h (service_step c svc w).2.trace = hook_count h w.trace :=
  service_step_inv c (fun _ v => hook_count h v.trace = hook_count h w.trace)
    (fun s v hv => (once_hooks h c s v).trans hv) svc w rfl

theorem step_list_hooks (h : hook_t) (c : ctx) (types : Nat) :
    ∀ (l : List svc_t) (w : world),
      hook_count h (step_list c types l w).2.trace = hook_count h w.trace := by
  intro l
  induction l with
  | nil => intro w; rfl
  | cons svc rest ih =>
    intro w
    unfold step_list
    split
    · exact ih w
    · exact (ih _).trans (service_step_hooks h c svc w)

theorem service_step_all_hooks (h : hook_t) (env : env_t) (types : Nat) (s : finit_t) :
    hook_count h (service_step_all env types s).w.trace = hook_count h s.w.trace :=
  step_list_hooks h _ types s.svcs s.w

theorem emit_hooks (h : hook_t) (e : event) (s : finit_t) (he : ∀ k, e ≠ event.hooks k) :
    hook_count h (emit e s).w.trace = hook_count h s.w.trace := by
  have : (event.hooks h == e) = false := by
    rw [beq_eq_false_iff_ne]
    exact fun hh => he h hh.symm
  simp [emit, hook_count, List.count_append, List.count_singleton, this, he h]

theorem plugin_run_hooks_count (h k : hook_t) (env : env_t) (s : finit_t) :
    hook_count h (plugin_run_hooks env k s).w.trace
      = hook_count h s.w.trace + (if h = k then 1 else 0) := by
  by_cases hk : h = k
  · subst hk
    simp [plugin_run_hooks, hook_count, List.count_append]
  · have : (event.hooks h == event.hooks k) = false := by
      rw [beq_eq_false_iff_ne]
      intro hh
      exact hk (event.hooks.inj hh)
    simp [plugin_run_hooks, hook_count, List.count_append, List.count_singleton, this, hk]

/-- The runlevel finisher runs the runlevel-change hooks once and no other
hooks, clears `in_teardown` and leaves `in_dyn_teardown` alone. -/
theorem service_runlevel_finish_effect (env : env_t) (s : finit_t) (h : hook_t) :
    hook_count h (service_runlevel_finish env s).w.trace
      = hook_count h s.w.trace + (if h = .HOOK_RUNLEVEL_CHANGE then 1 else 0) ∧
    (service_runlevel_finish env s).in_teardown = false ∧
    (service_runlevel_finish env s).in_dyn_teardown = s.in_dyn_teardown := by
  have base : hook_count h (svc_clean_dynamic (service_step_all env env.SVC_TYPE_ANY
      { plugin_run_hooks env .HOOK_RUNLEVEL_CHANGE s with in_teardown := false })).w.trace
      = hook_count h s.w.trace + (if h = .HOOK_RUNLEVEL_CHANGE then 1 else 0) := by
    rw [← plugin_run_hooks_count h .HOOK_RUNLEVEL_CHANGE env s]
    exact service_step_all_hooks h env env.SVC_TYPE_ANY _
  unfold service_runlevel_finish
  simp only
  split
  · refine ⟨?_, rfl, rfl⟩
    rw [emit_hooks h _ _ (by simp)]
    exact base
  · split
    · refine ⟨?_, rfl, rfl⟩
      rw [emit_hooks h _ _ (by simp)]
      exact base
    · split
      · refine ⟨?_, rfl, rfl⟩
        rw [emit_hooks h _ _ (by simp), emit_hooks h _ _ (by simp)]
        exact base
      · refine ⟨?_, rfl, rfl⟩
        rw [emit_hooks h _ _ (by simp)]
        exact base

/-- The reload finisher runs the reconfiguration hooks once and no other
hooks, clears `in_dyn_teardown` and leaves `in_teardown` alone. -/
theorem service_reload_dynamic_finish_effect (env : env_t) (s : finit_t) (h : hook_t) :
    hook_count h (service_reload_dynamic_finish env s).w.trace
      = hook_count h s.w.trace + (if h = .HOOK_SVC_RECONF then 1 else 0) ∧
    (service_reload_dynamic_finish env s).in_teardown = s.in_teardown ∧
    (service_reload_dynamic_finish env s).in_dyn_teardown = false := by
  refine ⟨?_, rfl, rfl⟩
  unfold service_reload_dynamic_finish
  simp only
  rw [service_step_all_hooks]
  exact plugin_run_hooks_count h .HOOK_SVC_RECONF env _

/-! ## The teardown barrier -/

theorem service_teardown_finish_idle (env : env_t) (s : finit_t)
    (h : (s.in_teardown = false ∧ s.in_dyn_teardown = false) ∨ service_stop_is_done s = false) :
    service_teardown_finish env s = s := by
  unfold service_teardown_finish
  rcases h with ⟨h1, h2⟩ | h
  · simp [h1, h2]
  · simp [h]

theorem service_teardown_finish_run (env : env_t) (s : finit_t)
    (h1 : s.in_teardown = true ∨ s.in_dyn_teardown = true) (h2 : service_stop_is_done s = true) :
    service_teardown_finish env s
      = if s.in_teardown = true then
          (if s.in_dyn_teardown = true then
            service_reload_dynamic_finish env (service_runlevel_finish env s)
           else service_runlevel_finish env s)
        else service_reload_dynamic_finish env s := by
  unfold service_teardown_finish
  have h3 : (s.in_teardown || s.in_dyn_teardown) = true := by
    rcases h1 with h | h <;> simp [h]
  by_cases ht : s.in_teardown = true
  · have := (service_runlevel_finish_effect env s .HOOK_SVC_RECONF).2.2
    by_cases hd : s.in_dyn_teardown = true
    · simp [h3, h2, ht, hd, this]
    · simp [h3, h2, ht, hd, this]
  · have hd : s.in_dyn_teardown = true := by
      rcases h1 with h | h
      · exact absurd h ht
      · exact h
    simp [h3, h2, ht, hd]

/-- C7 as stated fails on the code: with a runlevel change and a reload both
pending and no record in Stopping, `service_teardown_finish` runs the runlevel
finisher, whose sweep starts a task and so puts it in Stopping, and then runs
the reload finisher (its hooks come last in the trace) although a record is
in Stopping at that moment. -/
theorem teardown_barrier_counterexample :
    both_pending.in_teardown = true ∧ both_pending.in_dyn_teardown = true ∧
    service_stop_is_done both_pending = true ∧
    service_stop_is_done (service_runlevel_finish plain both_pending) = false ∧
    (service_runlevel_finish plain both_pending).in_dyn_teardown = true ∧
    hook_count .HOOK_SVC_RECONF (service_runlevel_finish plain both_pending).w.trace = 0 ∧
    (service_teardown_finish plain both_pending).w.trace
      = [event.hooks .HOOK_RUNLEVEL_CHANGE, event.fork 100, event.nologin false,
         event.tty_runlevel 2, event.hooks .HOOK_SVC_RECONF] := by
  decide

theorem service_runlevel_teardown_hooks (h : hook_t) (env : env_t) (n : Int) (s : finit_t) :
    hook_count h (service_runlevel_teardown env n s).w.trace = hook_count h s.w.trace := by
  unfold service_runlevel_teardown
  exact service_step_all_hooks h env env.SVC_TYPE_ANY _

theorem service_reload_dynamic_teardown_hooks (h : hook_t) (env : env_t) (s : finit_t) :
    hook_count h (service_reload_dynamic_teardown env s).w.trace = hook_count h s.w.trace := by
  unfold service_reload_dynamic_teardown
  exact service_step_all_hooks h env _ _

/-- C7 (teardown barrier), amended.  A finisher has been invoked exactly when
the count of its hooks in the trace has gone up.  `service_teardown_finish`
changes nothing when neither flag is set or some record is in Stopping.
`service_runlevel_finish` is invoked, by `service_teardown_finish` and by
`service_runlevel` alike, only on a state in which no record is in Stopping.
`service_reload_dynamic_finish` is invoked only after the barrier was found
clear: by `service_reload_dynamic` on a state without a Stopping record, by
`service_teardown_finish` on its entry state when `in_teardown` is clear, and,
when both flags are set, on the state the runlevel finisher left behind. -/
theorem teardown_barrier (env : env_t) (s : finit_t) (newlevel : Int) :
    ((s.in_teardown = false ∧ s.in_dyn_teardown = false) ∨ service_stop_is_done s = false →
      service_teardown_finish env s = s) ∧
    (hook_count .HOOK_RUNLEVEL_CHANGE (service_teardown_finish env s).w.trace
        ≠ hook_count .HOOK_RUNLEVEL_CHANGE s.w.trace →
      service_stop_is_done s = true ∧ s.in_teardown = true) ∧
    (hook_count .HOOK_SVC_RECONF (service_teardown_finish env s).w.trace
        ≠ hook_count .HOOK_SVC_RECONF s.w.trace →
      service_stop_is_done s = true ∧ s.in_dyn_teardown = true ∧
      (s.in_teardown = false →
        service_teardown_finish env s = service_reload_dynamic_finish env s) ∧
      (s.in_teardown = true →
        service_teardown_finish env s
          = service_reload_dynamic_finish env (service_runlevel_finish env s))) ∧
    (hook_count .HOOK_RUNLEVEL_CHANGE (service_runlevel env newlevel s).w.trace
        ≠ hook_count .HOOK_RUNLEVEL_CHANGE s.w.trace →
      service_stop_is_done (service_runlevel_teardown env newlevel s) = true ∧
      service_runlevel env newlevel s
        = service_runlevel_finish env (service_runlevel_teardown env newlevel s)) ∧
    (hook_count .HOOK_SVC_RECONF (service_reload_dynamic env s).w.trace
        ≠ hook_count .HOOK_SVC_RECONF s.w.trace →
      service_stop_is_done (service_reload_dynamic_teardown env s) = true ∧
      service_reload_dynamic env s
        = service_reload_dynamic_finish env (service_reload_dynamic_teardown env s)) := by
  have active : ∀ h, hook_count h (service_teardown_finish env s).w.trace ≠ hook_count h s.w.trace →
      (s.in_teardown = true ∨ s.in_dyn_teardown = true) ∧ service_stop_is_done s = true := by
    intro h hne
    by_contra hc
    apply hne
    rw [service_teardown_finish_idle env s]
    by_cases h1 : s.in_teardown = true
    · by_cases h2 : service_stop_is_done s = true
      · exact absurd ⟨Or.inl h1, h2⟩ hc
      · exact Or.inr (by simpa using h2)
    · by_cases h3 : s.in_dyn_teardown = true
      · by_cases h2 : service_stop_is_done s = true
        · exact absurd ⟨Or.inr h3, h2⟩ hc
        · exact Or.inr (by simpa using h2)
      · exact Or.inl ⟨by simpa using h1, by simpa using h3⟩
  refine ⟨service_teardown_finish_idle env s, ?_, ?_, ?_, ?_⟩
  · intro hne
    obtain ⟨h1, h2⟩ := active _ hne
    refine ⟨h2, ?_⟩
    by_contra ht
    apply hne
    rw [service_teardown_finish_run env s h1 h2, if_neg ht]
    simpa using (service_reload_dynamic_finish_effect env s .HOOK_RUNLEVEL_CHANGE).1
  · intro hne
    obtain ⟨h1, h2⟩ := active _ hne
    have hd : s.in_dyn_teardown = true := by
      by_contra hd
      apply hne
      have ht : s.in_teardown = true := by
        rcases h1 with h | h
        · exact h
        · exact absurd h hd
      rw [service_teardown_finish_run env s h1 h2, if_pos ht, if_neg hd]
      simpa using (service_runlevel_finish_effect env s .HOOK_SVC_RECONF).1
    refine ⟨h2, hd, ?_, ?_⟩
    · intro ht
      rw [service_teardown_finish_run env s h1 h2, if_neg (by simp [ht])]
    · intro ht
      rw [service_teardown_finish_run env s h1 h2, if_pos ht, if_pos hd]
  · intro hne
    unfold service_runlevel at hne ⊢
    by_cases h1 : s.runlevel = newlevel
    · simp [h1] at hne
    by_cases h2 : newlevel < 0 ∨ newlevel > 9
    · simp [h1, h2] at hne
    by_cases h3 : service_stop_is_done (service_runlevel_teardown env newlevel s) = true
    · simp [h1, h2, h3]
    · simp [h1, h2, h3, service_runlevel_teardown_hooks] at hne
  · intro hne
    unfold service_reload_dynamic at hne ⊢
    by_cases h3 : service_stop_is_done (service_reload_dynamic_teardown env s) = true
    · simp [h3]
    · simp [h3, service_reload_dynamic_teardown_hooks] at hne

theorem teardown_barrier_witness :
    (service_stop_is_done (service_monitor_step plain 11 svc_b_stopping leaving3) = true ∧
      (service_monitor_step plain 11 svc_b_stopping leaving3).in_teardown = true) ∧
    (service_stop_is_done (service_runlevel_teardown plain 2 level3_c) = true ∧
      service_runlevel plain 2 level3_c
        = service_runlevel_finish plain (service_runlevel_teardown plain 2 level3_c)) :=
  ⟨(teardown_barrier plain (service_monitor_step plain 11 svc_b_stopping leaving3) 2).2.1
      (by decide),
   (teardown_barrier plain level3_c 2).2.2.2.1 (by decide)⟩

/-! ## Runlevel-change hooks -/

theorem service_monitor_step_hooks (h : hook_t) (env : env_t) (lost : Int) (svc : svc_t)
    (s : finit_t) :
    hook_count h (service_monitor_step env lost svc s).w.trace = hook_count h s.w.trace := by
  unfold service_monitor_step service_reap
  exact service_step_hooks h _ _ _

theorem service_monitor_cases (env : env_t) (lost : Int) (s : finit_t) :
    service_monitor env lost s = s ∨
    (∃ cleaned, service_monitor env lost s = { s with svcs := cleaned }) ∨
    (∃ svc, service_monitor env lost s
      = service_teardown_finish env (service_monitor_step env lost svc s)) := by
  unfold service_monitor
  split
  · exact Or.inl rfl
  · split
    · exact Or.inl rfl
    · split
      · exact Or.inl rfl
      · split
        · exact Or.inl rfl
        · split
          · exact Or.inr (Or.inl ⟨_, rfl⟩)
          · exact Or.inr (Or.inr ⟨_, rfl⟩)

theorem service_monitor_reaches (env : env_t) (lost : Int) (s : finit_t) (svc : svc_t)
    (h : monitor_reaches env lost s svc) :
    service_monitor env lost s
      = service_teardown_finish env (service_monitor_step env lost svc s) := by
  obtain ⟨h1, h2, h3, h4, h5, h6⟩ := h
  have h2' : ¬ lost ≤ 1 := by omega
  unfold service_monitor
  by_cases hp : s.prevlevel = 0
  · simp [h1, h2', h3, h4, h5, hp, h6 hp]
  · simp [h1, h2', h3, h4, h5, hp]

/-- What `service_teardown_finish` does to the runlevel-change hooks and to
`in_teardown`. -/
theorem service_teardown_finish_runlevel (env : env_t) (s : finit_t) :
    (s.in_teardown = true ∧ service_stop_is_done s = true →
      hook_count .HOOK_RUNLEVEL_CHANGE (service_teardown_finish env s).w.trace
        = hook_count .HOOK_RUNLEVEL_CHANGE s.w.trace + 1 ∧
      (service_teardown_finish env s).in_teardown = false) ∧
    (s.in_teardown = false ∨ service_stop_is_done s = false →
      hook_count .HOOK_RUNLEVEL_CHANGE (service_teardown_finish env s).w.trace
        = hook_count .HOOK_RUNLEVEL_CHANGE s.w.trace ∧
      (service_teardown_finish env s).in_teardown = s.in_teardown) := by
  have hrl := service_runlevel_finish_effect env s .HOOK_RUNLEVEL_CHANGE
  refine ⟨?_, ?_⟩
  · rintro ⟨ht, hd⟩
    rw [service_teardown_finish_run env s (Or.inl ht) hd, if_pos ht]
    by_cases hdy : s.in_dyn_teardown = true
    · rw [if_pos hdy]
      have hrc := service_reload_dynamic_finish_effect env (service_runlevel_finish env s)
        .HOOK_RUNLEVEL_CHANGE
      refine ⟨?_, hrc.2.1.trans hrl.2.1⟩
      rw [hrc.1, hrl.1]
      simp
    · rw [if_neg hdy]
      exact ⟨by simpa using hrl.1, hrl.2.1⟩
  · intro h
    by_cases hd : service_stop_is_done s = true
    · have ht : s.in_teardown = false := by
        rcases h with h | h
        · exact h
        · rw [hd] at h; exact absurd h (by decide)
      by_cases hdy : s.in_dyn_teardown = true
      · rw [service_teardown_finish_run env s (Or.inr hdy) hd, if_neg (by simp [ht])]
        have hrc := service_reload_dynamic_finish_effect env s .HOOK_RUNLEVEL_CHANGE
        exact ⟨by simpa using hrc.1, hrc.2.1⟩
      · rw [service_teardown_finish_idle env s (Or.inl ⟨ht, by simpa using hdy⟩)]
        exact ⟨rfl, rfl⟩
    · rw [service_teardown_finish_idle env s (Or.inr (by simpa using hd))]
      exact ⟨rfl, rfl⟩

theorem service_monitor_idle (env : env_t) (lost : Int) (s : finit_t)
    (h : s.in_teardown = false) :
    hook_count .HOOK_RUNLEVEL_CHANGE (service_monitor env lost s).w.trace
      = hook_count .HOOK_RUNLEVEL_CHANGE s.w.trace ∧
    (service_monitor env lost s).in_teardown = false := by
  rcases service_monitor_cases env lost s with e | ⟨cl, e⟩ | ⟨svc, e⟩ <;> rw [e]
  · exact ⟨rfl, h⟩
  · exact ⟨rfl, h⟩
  · have := (service_teardown_finish_runlevel env (service_monitor_step env lost svc s)).2
      (Or.inl h)
    exact ⟨this.1.trans (service_monitor_step_hooks _ env lost svc s), this.2.trans h⟩

theorem monitors_idle (calls : List (env_t × Int)) :
    ∀ s : finit_t, s.in_teardown = false →
      hook_count .HOOK_RUNLEVEL_CHANGE (monitors calls s).w.trace
        = hook_count .HOOK_RUNLEVEL_CHANGE s.w.trace ∧
      (monitors calls s).in_teardown = false := by
  induction calls with
  | nil => intro s h; exact ⟨rfl, h⟩
  | cons call rest ih =>
    intro s h
    have h1 := service_monitor_idle call.1 call.2 s h
    have h2 := ih (service_monitor call.1 call.2 s) h1.2
    exact ⟨h2.1.trans h1.1, h2.2⟩

/-- The runlevel-change hooks, call by call.  For
an accepted `service_runlevel(newlevel)`: if a record is in Stopping after
the first stage, the hooks are not run inside `service_runlevel` and
`in_teardown` stays set; otherwise they are run exactly once inside it and
`in_teardown` is cleared.  While `in_teardown` is set, a `service_monitor`
call that gets to a record runs the hooks exactly once, and clears
`in_teardown`, if no record is in Stopping once the reaped record has been
stepped, and does not run them otherwise; whatever the call, it either runs
them once and clears `in_teardown` or runs none and leaves it set.  Once
`in_teardown` is clear, no sequence of `service_monitor` calls runs them
again. -/
theorem runlevel_hooks_once (env : env_t) (s : finit_t) (newlevel : Int)
    (hne : s.runlevel ≠ newlevel) (hlo : 0 ≤ newlevel) (hhi : newlevel ≤ 9) :
    (service_stop_is_done (service_runlevel_teardown env newlevel s) = false →
      hook_count .HOOK_RUNLEVEL_CHANGE (service_runlevel env newlevel s).w.trace
        = hook_count .HOOK_RUNLEVEL_CHANGE s.w.trace ∧
      (service_runlevel env newlevel s).in_teardown = true) ∧
    (service_stop_is_done (service_runlevel_teardown env newlevel s) = true →
      hook_count .HOOK_RUNLEVEL_CHANGE (service_runlevel env newlevel s).w.trace
        = hook_count .HOOK_RUNLEVEL_CHANGE s.w.trace + 1 ∧
      (service_runlevel env newlevel s).in_teardown = false) ∧
    (∀ (env' : env_t) (lost : Int) (s' : finit_t) (svc : svc_t),
      s'.in_teardown = true → monitor_reaches env' lost s' svc →
      (service_stop_is_done (service_monitor_step env' lost svc s') = true →
        hook_count .HOOK_RUNLEVEL_CHANGE (service_monitor env' lost s').w.trace
          = hook_count .HOOK_RUNLEVEL_CHANGE s'.w.trace + 1 ∧
        (service_monitor env' lost s').in_teardown = false) ∧
      (service_stop_is_done (service_monitor_step env' lost svc s') = false →
        hook_count .HOOK_RUNLEVEL_CHANGE (service_monitor env' lost s').w.trace
          = hook_count .HOOK_RUNLEVEL_CHANGE s'.w.trace ∧
        (service_monitor env' lost s').in_teardown = true)) ∧
    (∀ (env' : env_t) (lost : Int) (s' : finit_t), s'.in_teardown = true →
      (hook_count .HOOK_RUNLEVEL_CHANGE (service_monitor env' lost s').w.trace
          = hook_count .HOOK_RUNLEVEL_CHANGE s'.w.trace + 1 ∧
        (service_monitor env' lost s').in_teardown = false) ∨
      (hook_count .HOOK_RUNLEVEL_CHANGE (service_monitor env' lost s').w.trace
          = hook_count .HOOK_RUNLEVEL_CHANGE s'.w.trace ∧
        (service_monitor env' lost s').in_teardown = true)) ∧
    (∀ (calls : List (env_t × Int)) (s' : finit_t), s'.in_teardown = false →
      hook_count .HOOK_RUNLEVEL_CHANGE (monitors calls s').w.trace
        = hook_count .HOOK_RUNLEVEL_CHANGE s'.w.trace ∧
      (monitors calls s').in_teardown = false) := by
  have hacc : service_runlevel env newlevel s
      = if service_stop_is_done (service_runlevel_teardown env newlevel s) = true then
          service_runlevel_finish env (service_runlevel_teardown env newlevel s)
        else service_runlevel_teardown env newlevel s := by
    unfold service_runlevel
    have h2 : ¬ (newlevel < 0 ∨ newlevel > 9) := by omega
    by_cases hd : service_stop_is_done (service_runlevel_teardown env newlevel s) = true <;>
      simp [hne, h2, hd]
  have hflag : (service_runlevel_teardown env newlevel s).in_teardown = true := rfl
  refine ⟨?_, ?_, ?_, ?_, ?_⟩
  · intro hd
    rw [hacc, if_neg (by simp [hd])]
    exact ⟨service_runlevel_teardown_hooks _ env newlevel s, hflag⟩
  · intro hd
    rw [hacc, if_pos hd]
    have := service_runlevel_finish_effect env (service_runlevel_teardown env newlevel s)
      .HOOK_RUNLEVEL_CHANGE
    refine ⟨?_, this.2.1⟩
    rw [this.1, service_runlevel_teardown_hooks]
    simp
  · intro env' lost s' svc ht hr
    rw [service_monitor_reaches env' lost s' svc hr]
    have hstep := service_monitor_step_hooks .HOOK_RUNLEVEL_CHANGE env' lost svc s'
    have hfl : (service_monitor_step env' lost svc s').in_teardown = true := ht
    have := service_teardown_finish_runlevel env' (service_monitor_step env' lost svc s')
    refine ⟨?_, ?_⟩
    · intro hd
      have h1 := this.1 ⟨hfl, hd⟩
      exact ⟨h1.1.trans (by rw [hstep]), h1.2⟩
    · intro hd
      have h1 := this.2 (Or.inr hd)
      exact ⟨h1.1.trans hstep, h1.2.trans hfl⟩
  · intro env' lost s' ht
    rcases service_monitor_cases env' lost s' with e | ⟨cl, e⟩ | ⟨svc, e⟩ <;> rw [e]
    · exact Or.inr ⟨rfl, ht⟩
    · exact Or.inr ⟨rfl, ht⟩
    · have hstep := service_monitor_step_hooks .HOOK_RUNLEVEL_CHANGE env' lost svc s'
      have hfl : (service_monitor_step env' lost svc s').in_teardown = true := ht
      have := service_teardown_finish_runlevel env' (service_monitor_step env' lost svc s')
      by_cases hd : service_stop_is_done (service_monitor_step env' lost svc s') = true
      · have h1 := this.1 ⟨hfl, hd⟩
        exact Or.inl ⟨h1.1.trans (by rw [hstep]), h1.2⟩
      · have h1 := this.2 (Or.inr (by simpa using hd))
        exact Or.inr ⟨h1.1.trans hstep, h1.2.trans hfl⟩
  · exact fun calls s' h => monitors_idle calls s' h

theorem monitor_reaches_leaving3 : monitor_reaches plain 11 leaving3 svc_b_stopping := by
  refine ⟨by decide, by decide, rfl, rfl, by decide, fun _ => rfl⟩

theorem runlevel_hooks_once_witness :
    (hook_count .HOOK_RUNLEVEL_CHANGE (service_runlevel plain 2 level3).w.trace
        = hook_count .HOOK_RUNLEVEL_CHANGE level3.w.trace ∧
      (service_runlevel plain 2 level3).in_teardown = true) ∧
    (hook_count .HOOK_RUNLEVEL_CHANGE (service_monitor plain 11 leaving3).w.trace
        = hook_count .HOOK_RUNLEVEL_CHANGE leaving3.w.trace + 1 ∧
      (service_monitor plain 11 leaving3).in_teardown = false) :=
  ⟨(runlevel_hooks_once plain level3 2 (by decide) (by decide) (by decide)).1 (by decide),
   ((runlevel_hooks_once plain level3 2 (by decide) (by decide) (by decide)).2.2.1
      plain 11 leaving3 svc_b_stopping rfl monitor_reaches_leaving3).1 (by decide)⟩

/-! ## Order of the two phases -/

/-- C9 (two-phase order) fails on the code: `service_step` never looks at
`in_teardown`, so the first-stage sweep of `service_runlevel` starts the
halted service `C [2]` as soon as the runlevel is 2; the fork comes before
the runlevel-change hooks in the trace. -/
theorem phase_one_forks :
    level3_c.runlevel = 3 ∧ level3_c.svcs = [svc_c] ∧
    svc_c.state = .SVC_HALTED_STATE ∧ svc_in_runlevel svc_c 2 = true ∧
    svc_in_runlevel svc_c 3 = false ∧
    (service_runlevel_teardown plain 2 level3_c).w.trace = [event.fork 100] ∧
    (service_runlevel plain 2 level3_c).w.trace
      = [event.fork 100, event.hooks .HOOK_RUNLEVEL_CHANGE, event.nologin false,
         event.tty_runlevel 2] := by
  decide

/-! ## Start failures -/

/-- A start attempt that `service_step` recognises as failed (`service_start`
returns non-zero, or leaves `pid` at 0) adds one to restart_counter and leaves
the record in Ready. -/
theorem step_ready_start_failed (c : ctx) (svc : svc_t) (w : world)
    (hs : svc.state = .SVC_READY_STATE) (he : service_enabled c svc = true)
    (hc : c.cond_get_agg svc.cond = .COND_ON) (hr : svc.restart_counter < RESPAWN_MAX)
    (hf : (service_start c svc w).2.2 ≠ 0 ∨ (service_start c svc w).1.pid = 0) :
    service_step c svc w
      = ({ (service_start c svc w).1 with
             restart_counter := (service_start c svc w).1.restart_counter + 1 },
         (service_start c svc w).2.1) := by
  have hr2 : ¬ RESPAWN_MAX ≤ svc.restart_counter := by omega
  have hst : (service_start c svc w).1.state = svc.state := by
    rcases service_start_cases c svc w with e | e | e <;> rw [e]
  apply service_step_rest_eq
  · simp only [service_step_once, hs, he, hc, hr2, ge_iff_le]
    simp [hf]
  · exact hst

/-- C11 (transient start failure) fails on the code for a failing `fork`:
`service_start` stores -1 in `pid` and returns 0, `service_step` takes that
for a success, and the record leaves Ready for Running with restart_counter
as it was. -/
theorem fork_failure_not_counted :
    flaky_ready.state = .SVC_READY_STATE ∧ service_enabled nofork flaky_ready = true ∧
    nofork.cond_get_agg flaky_ready.cond = .COND_ON ∧
    flaky_ready.restart_counter = 3 ∧ (nofork.start 0).fork_pid = -1 ∧
    (service_start nofork flaky_ready quiet).2.2 = 0 ∧
    (service_step nofork flaky_ready quiet).1.state = .SVC_RUNNING_STATE ∧
    (service_step nofork flaky_ready quiet).1.restart_counter = 3 ∧
    (service_step nofork flaky_ready quiet).1.pid = -1 := by
  decide

/-! ## Signals -/

/-- The guard of `service_stop`: if it sends anything, it is one `SIGTERM` to a
pid > 1. -/
theorem service_stop_guarded (c : ctx) (svc : svc_t) (w : world) :
    (service_stop c svc w).2.1 = w ∨
    (1 < svc.pid ∧
      (service_stop c svc w).2.1
        = { w with trace := w.trace ++ [event.kill svc.pid .SIGTERM] }) := by
  unfold service_stop
  by_cases hp : svc.pid ≤ 1
  · simp [hp]
  · by_cases ht : svc.type = .SVC_TYPE_SERVICE
    · right
      simp [hp, ht]
      omega
    · simp [hp, ht]

/-- The guard of `service_restart`: if it sends anything, it is one `SIGHUP` to
a pid > 1. -/
theorem service_restart_guarded (c : ctx) (svc : svc_t) (w : world) :
    (service_restart c svc w).2.1 = w ∨
    (1 < svc.pid ∧
      (service_restart c svc w).2.1
        = { w with trace := w.trace ++ [event.kill svc.pid .SIGHUP] }) := by
  unfold service_restart
  by_cases hn : is_norespawn c = true
  · simp [hn]
  · by_cases hh : svc.sighup = true
    · by_cases hp : svc.pid ≤ 1
      · simp [hn, hh, hp]
      · right
        simp [hn, hh, hp]
        omega
    · simp [hn, hh]

/-- C12 (no signal to an invalid pid) fails on the code: an inetd record
waiting for a connection (Waiting, pid 0) that is not allowed in the runlevel
is sent `SIGCONT` through `kill(svc->pid, SIGCONT)` with pid 0, which signals
the whole process group of the supervisor. -/
theorem signal_to_pid_zero :
    sshd_inetd.state = .SVC_WAITING_STATE ∧ sshd_inetd.pid = 0 ∧
    service_enabled calm_single sshd_inetd = false ∧
    (service_step calm_single sshd_inetd quiet).2.trace = [event.kill 0 .SIGCONT] ∧
    (service_step calm_single sshd_inetd quiet).1.state = .SVC_HALTED_STATE := by
  decide

/-! ## Records marked for removal -/

/-- C13 (a record scheduled for removal is never restarted) fails on the
code: a running service with `dirty == -1` is sent `SIGTERM`, moved to Ready
and forked again in the same step, and its removal mark is reset to 0. -/
theorem removed_restarted :
    removed_running.state = .SVC_RUNNING_STATE ∧ svc_is_removed removed_running = true ∧
    (service_step calm removed_running quiet).2.trace
      = [event.kill 55 .SIGTERM, event.fork 100] ∧
    (service_step calm removed_running quiet).1.state = .SVC_RUNNING_STATE ∧
    (service_step calm removed_running quiet).1.pid = 100 ∧
    (service_step calm removed_running quiet).1.dirty = 0 := by
  decide

/-! ## Successful start -/

theorem once_stopping_alive (c : ctx) (svc : svc_t) (w : world)
    (hs : svc.state = .SVC_STOPPING_STATE) (hp : svc.pid ≠ 0) :
    service_step_once c svc w = (svc, w) := by
  simp [service_step_once, hs, hp]

theorem once_done_clean (c : ctx) (svc : svc_t) (w : world)
    (hs : svc.state = .SVC_DONE_STATE) (hd : svc.dirty = 0) :
    service_step_once c svc w = (svc, w) := by
  simp [service_step_once, hs, hd, svc_is_changed]

theorem service_start_ok (c : ctx) (svc : svc_t) (w : world)
    (h : (service_start c svc w).2.2 = 0) :
    service_start c svc w
      = ({ svc with pid := (c.start w.starts).fork_pid },
         { trace := w.trace ++ [event.fork (c.start w.starts).fork_pid],
           starts := w.starts + 1 }, 0) := by
  rcases service_start_cases c svc w with e | e | e
  · rw [e] at h; simp at h
  · rw [e] at h; simp at h
  · exact e

/-- C14 (successful start transitions by type): for every Ready, enabled
record with aggregate condition on and restart_counter < RESPAWN_MAX whose
`service_start` returns 0 with a non-zero pid, `service_step` records that pid,
clears `dirty`, leaves restart_counter as it was, makes no other system call
than that one fork, and returns in Running for type Service, in Stopping for
types Task and Inetd, and in Done for type Run. -/
theorem start_by_type (c : ctx) (svc : svc_t) (w : world)
    (hs : svc.state = .SVC_READY_STATE) (he : service_enabled c svc = true)
    (hc : c.cond_get_agg svc.cond = .COND_ON) (hr : svc.restart_counter < RESPAWN_MAX)
    (hok : (service_start c svc w).2.2 = 0) (hp : (service_start c svc w).1.pid ≠ 0) :
    (service_step c svc w).1.dirty = 0 ∧
    (service_step c svc w).1.restart_counter = svc.restart_counter ∧
    (service_step c svc w).1.pid = (c.start w.starts).fork_pid ∧
    (service_step c svc w).2
      = { trace := w.trace ++ [event.fork (c.start w.starts).fork_pid],
          starts := w.starts + 1 } ∧
    (svc.type = .SVC_TYPE_SERVICE → (service_step c svc w).1.state = .SVC_RUNNING_STATE) ∧
    (svc.type = .SVC_TYPE_TASK ∨ svc.type = .SVC_TYPE_INETD →
      (service_step c svc w).1.state = .SVC_STOPPING_STATE) ∧
    (svc.type = .SVC_TYPE_RUN → (service_step c svc w).1.state = .SVC_DONE_STATE) := by
  have e := service_start_ok c svc w hok
  rw [e] at hp
  have hp0 : (c.start w.starts).fork_pid ≠ 0 := hp
  have hr2 : ¬ RESPAWN_MAX ≤ svc.restart_counter := by omega
  rcases ht : svc.type with _ | _ | _ | _ | _
  · -- free: the record stays in Ready
    have e1 := service_step_rest_eq c svc
      { svc with pid := (c.start w.starts).fork_pid, dirty := 0 } w
      { trace := w.trace ++ [event.fork (c.start w.starts).fork_pid], starts := w.starts + 1 }
      (by simp [service_step_once, hs, he, hc, hr2, e, hp0, ht]) rfl
    rw [e1]
    simp
  · have e1 := service_step_next_eq c svc
      { svc with pid := (c.start w.starts).fork_pid, dirty := 0, state := .SVC_RUNNING_STATE } w
      { trace := w.trace ++ [event.fork (c.start w.starts).fork_pid], starts := w.starts + 1 }
      (by simp [service_step_once, hs, he, hc, hr2, e, hp0, ht]) (by simp [hs])
    have e2 := service_step_rest_eq c
      { svc with pid := (c.start w.starts).fork_pid, dirty := 0, state := .SVC_RUNNING_STATE } _
      { trace := w.trace ++ [event.fork (c.start w.starts).fork_pid], starts := w.starts + 1 } _
      (once_running_stable c _ _ rfl he hp0 hc rfl) rfl
    rw [e1.trans e2]
    simp
  · have e1 := service_step_next_eq c svc
      { svc with pid := (c.start w.starts).fork_pid, dirty := 0, state := .SVC_STOPPING_STATE } w
      { trace := w.trace ++ [event.fork (c.start w.starts).fork_pid], starts := w.starts + 1 }
      (by simp [service_step_once, hs, he, hc, hr2, e, hp0, ht]) (by simp [hs])
    have e2 := service_step_rest_eq c
      { svc with pid := (c.start w.starts).fork_pid, dirty := 0, state := .SVC_STOPPING_STATE } _
      { trace := w.trace ++ [event.fork (c.start w.starts).fork_pid], starts := w.starts + 1 } _
      (once_stopping_alive c _ _ rfl hp0) rfl
    rw [e1.trans e2]
    simp
  · have e1 := service_step_next_eq c svc
      { svc with pid := (c.start w.starts).fork_pid, dirty := 0, state := .SVC_DONE_STATE } w
      { trace := w.trace ++ [event.fork (c.start w.starts).fork_pid], starts := w.starts + 1 }
      (by simp [service_step_once, hs, he, hc, hr2, e, hp0, ht]) (by simp [hs])
    have e2 := service_step_rest_eq c
      { svc with pid := (c.start w.starts).fork_pid, dirty := 0, state := .SVC_DONE_STATE } _
      { trace := w.trace ++ [event.fork (c.start w.starts).fork_pid], starts := w.starts + 1 } _
      (once_done_clean c _ _ rfl rfl) rfl
    rw [e1.trans e2]
    simp
  · have e1 := service_step_next_eq c svc
      { svc with pid := (c.start w.starts).fork_pid, dirty := 0, state := .SVC_STOPPING_STATE } w
      { trace := w.trace ++ [event.fork (c.start w.starts).fork_pid], starts := w.starts + 1 }
      (by simp [service_step_once, hs, he, hc, hr2, e, hp0, ht]) (by simp [hs])
    have e2 := service_step_rest_eq c
      { svc with pid := (c.start w.starts).fork_pid, dirty := 0, state := .SVC_STOPPING_STATE } _
      { trace := w.trace ++ [event.fork (c.start w.starts).fork_pid], starts := w.starts + 1 } _
      (once_stopping_alive c _ _ rfl hp0) rfl
    rw [e1.trans e2]
    simp

theorem start_by_type_witness :
    (service_step calm mount_fs_ready quiet).1.dirty = 0 ∧
    (service_step calm mount_fs_ready quiet).1.state
      = .SVC_DONE_STATE :=
  ⟨(start_by_type calm mount_fs_ready quiet rfl
      (by decide) rfl (by decide) (by decide) (by decide)).1,
   (start_by_type calm mount_fs_ready quiet rfl
      (by decide) rfl (by decide) (by decide) (by decide)).2.2.2.2.2.2 rfl⟩

/-! ## Disabling a running service -/

/-- C15 (disabling a running service): for every Running record of type
Service with pid > 1 that is not enabled, `service_step` sends exactly one
`SIGTERM` to its pid and makes no other system call (no fork), keeps pid and
every other field, and returns with state Stopping. -/
theorem disable_running (c : ctx) (svc : svc_t) (w : world)
    (hs : svc.state = .SVC_RUNNING_STATE) (ht : svc.type = .SVC_TYPE_SERVICE)
    (hp : 1 < svc.pid) (he : service_enabled c svc = false) :
    service_step c svc w
      = ({ svc with state := .SVC_STOPPING_STATE },
         { w with trace := w.trace ++ [event.kill svc.pid .SIGTERM] }) := by
  have hp1 : ¬ svc.pid ≤ 1 := by omega
  have hp0 : svc.pid ≠ 0 := by omega
  have e1 := service_step_next_eq c svc { svc with state := .SVC_STOPPING_STATE } w
    { w with trace := w.trace ++ [event.kill svc.pid .SIGTERM] }
    (by simp [service_step_once, hs, he, service_stop, hp1, ht]) (by simp [hs])
  have e2 := service_step_rest_eq c { svc with state := .SVC_STOPPING_STATE } _
    { w with trace := w.trace ++ [event.kill svc.pid .SIGTERM] } _
    (once_stopping_alive c _ _ rfl hp0) rfl
  exact e1.trans e2

theorem disable_running_witness :
    service_step calm_single syslogd_running quiet
      = ({ syslogd_running with state := .SVC_STOPPING_STATE },
         { quiet with trace := quiet.trace ++ [event.kill syslogd_running.pid .SIGTERM] }) :=
  disable_running calm_single syslogd_running quiet rfl rfl (by decide) (by decide)

/-! ## Reload of a changed service -/

/-- C16 as stated fails on the code: `service_step` ignores what
`service_restart` returns.  With `sighup` set and respawning suspended,
`service_restart` returns an error without sending anything; with `kill`
failing it returns the error of `kill`.  In both cases the record stays in
Running with `dirty` cleared and no `SIGTERM` is sent. -/
theorem reload_fallback_counterexample :
    (hup_edited.state = .SVC_RUNNING_STATE ∧ hup_edited.sighup = true ∧
      hup_edited.dirty = 1 ∧ service_enabled calm_stopped hup_edited = true) ∧
    ((service_restart calm_stopped hup_edited quiet).2.2 = 1 ∧
      (service_step calm_stopped hup_edited quiet).1.state = .SVC_RUNNING_STATE ∧
      (service_step calm_stopped hup_edited quiet).1.dirty = 0 ∧
      (service_step calm_stopped hup_edited quiet).2.trace = []) ∧
    ((service_restart calm_killfail hup_edited quiet).2.2 = -1 ∧
      (service_step calm_killfail hup_edited quiet).1.state = .SVC_RUNNING_STATE ∧
      (service_step calm_killfail hup_edited quiet).1.dirty = 0 ∧
      (service_step calm_killfail hup_edited quiet).2.trace = [event.kill 55 .SIGHUP]) := by
  decide

/-- C16 (reload of a changed service), amended: for every Running, enabled
record with pid > 1 and aggregate condition on that has changed
(`dirty != 0`): if `sighup` is set, `service_step` calls `service_restart`,
which sends `SIGHUP` to the pid unless respawning is suspended, and whatever
it returns the record stays in Running with `dirty` cleared and nothing else
is done; if `sighup` is unset, the pass calls `service_stop` (one `SIGTERM`
for type Service) and moves the record to Ready, from where the step goes
on. -/
theorem reload_by_sighup (c : ctx) (svc : svc_t) (w : world)
    (hs : svc.state = .SVC_RUNNING_STATE) (he : service_enabled c svc = true)
    (hp : 1 < svc.pid) (hc : c.cond_get_agg svc.cond = .COND_ON) (hd : svc.dirty ≠ 0) :
    (svc.sighup = true →
      service_step c svc w = ({ svc with dirty := 0 }, (service_restart c svc w).2.1) ∧
      (is_norespawn c = false →
        (service_restart c svc w).2.1
          = { w with trace := w.trace ++ [event.kill svc.pid .SIGHUP] }) ∧
      (is_norespawn c = true → (service_restart c svc w).2.1 = w)) ∧
    (svc.sighup = false →
      service_step_once c svc w
        = ({ svc with state := .SVC_READY_STATE }, (service_stop c svc w).2.1) ∧
      service_step c svc w
        = service_step c { svc with state := .SVC_READY_STATE } (service_stop c svc w).2.1 ∧
      (svc.type = .SVC_TYPE_SERVICE →
        (service_stop c svc w).2.1
          = { w with trace := w.trace ++ [event.kill svc.pid .SIGTERM] })) := by
  have hp1 : ¬ svc.pid ≤ 1 := by omega
  have hp0 : svc.pid ≠ 0 := by omega
  refine ⟨?_, ?_⟩
  · intro hh
    have hfst : (service_restart c svc w).1 = svc := by
      unfold service_restart
      by_cases hn : is_norespawn c = true <;> simp [hn, hh, hp1]
    refine ⟨?_, ?_, ?_⟩
    · apply service_step_rest_eq
      · simp [service_step_once, hs, he, hp0, hc, hh, hd, svc_is_changed, hfst]
      · rfl
    · intro hn
      simp [service_restart, hn, hh, hp1]
    · intro hn
      simp [service_restart, hn]
  · intro hh
    have e : service_step_once c svc w
        = ({ svc with state := .SVC_READY_STATE }, (service_stop c svc w).2.1) := by
      simp [service_step_once, hs, he, hp0, hc, hh, hd, svc_is_changed, service_stop_fst]
    refine ⟨e, service_step_next_eq c svc _ w _ e (by simp [hs]), ?_⟩
    intro ht
    simp [service_stop, hp1, ht]

theorem reload_by_sighup_witness :
    (service_step calm hup_edited quiet
        = ({ hup_edited with dirty := 0 }, (service_restart calm hup_edited quiet).2.1) ∧
      (service_restart calm hup_edited quiet).2.1
        = { quiet with trace := quiet.trace ++ [event.kill hup_edited.pid .SIGHUP] }) ∧
    (service_step calm syslogd_edited quiet
        = service_step calm { syslogd_edited with state := .SVC_READY_STATE }
            (service_stop calm syslogd_edited quiet).2.1) :=
  ⟨⟨((reload_by_sighup calm hup_edited quiet rfl (by decide) (by decide) rfl (by decide)).1
        rfl).1,
    ((reload_by_sighup calm hup_edited quiet rfl (by decide) (by decide) rfl (by decide)).1
        rfl).2.1 (by decide)⟩,
   ((reload_by_sighup calm syslogd_edited quiet rfl (by decide)
      (by decide) rfl (by decide)).2 rfl).2.1⟩

/-! ## Missing command -/

theorem once_ready_disabled (c : ctx) (svc : svc_t) (w : world)
    (hs : svc.state = .SVC_READY_STATE) (he : service_enabled c svc = false) :
    service_step_once c svc w = ({ svc with state := .SVC_HALTED_STATE }, w) := by
  simp [service_step_once, hs, he]

theorem service_start_missing (c : ctx) (svc : svc_t) (w : world)
    (hf : c.fexist svc.cmd = false) (hi : svc.inetd_cmd = false) :
    service_start c svc w
      = ({ svc with block := .SVC_BLOCK_MISSING }, { w with starts := w.starts + 1 }, 1) := by
  simp [service_start, hf, hi]

/-- C17 as stated fails on the code: the step that finds the command missing
leaves the record in Ready (with block Missing), not in Halted. -/
theorem missing_command_counterexample :
    flaky.state = .SVC_HALTED_STATE ∧ service_enabled calm_missing flaky = true ∧
    calm_missing.cond_get_agg flaky.cond = .COND_ON ∧
    calm_missing.fexist flaky.cmd = false ∧ flaky.inetd_cmd = false ∧
    (service_step calm_missing flaky quiet).1.state = .SVC_READY_STATE ∧
    (service_step calm_missing flaky quiet).1.block = .SVC_BLOCK_MISSING := by
  decide

/-- C17 (missing command), amended: for every enabled record in Halted with
aggregate condition on whose command file does not exist and which has no
inetd plugin command, `service_step` enters `service_start` once, makes no
fork or other system call, sets block = Missing, counts one restart and
returns with the record in Ready; the next `service_step`, in whatever
context, makes no system call either and puts the record in Halted, still
blocked, with restart_counter 0. -/
theorem missing_command (c : ctx) (svc : svc_t) (w : world)
    (hs : svc.state = .SVC_HALTED_STATE) (he : service_enabled c svc = true)
    (hc : c.cond_get_agg svc.cond = .COND_ON)
    (hf : c.fexist svc.cmd = false) (hi : svc.inetd_cmd = false) :
    service_step c svc w
      = ({ svc with restart_counter := 1, block := .SVC_BLOCK_MISSING,
                    state := .SVC_READY_STATE },
         { w with starts := w.starts + 1 }) ∧
    ∀ (c' : ctx) (w' : world),
      service_step c'
          { svc with restart_counter := 1, block := .SVC_BLOCK_MISSING,
                     state := .SVC_READY_STATE } w'
        = ({ svc with restart_counter := 0, block := .SVC_BLOCK_MISSING,
                      state := .SVC_HALTED_STATE }, w') := by
  refine ⟨?_, ?_⟩
  · have e1 := service_step_next_eq c svc _ w _ (once_halted_enabled c svc w hs he)
      (by simp [hs])
    have e0 := service_start_missing c { svc with restart_counter := 0, state := .SVC_READY_STATE }
      w hf hi
    have e2 := step_ready_start_failed c
      { svc with restart_counter := 0, state := .SVC_READY_STATE } w rfl he hc
      (by simp [RESPAWN_MAX]) (Or.inl (by rw [e0]; simp))
    rw [e1, e2, e0]
    simp
  · intro c' w'
    have hd : ∀ s : svc_t, s.block = .SVC_BLOCK_MISSING → service_enabled c' s = false := by
      intro s hb
      simp [service_enabled_eq, hb]
    have e1 := service_step_next_eq c'
      { svc with restart_counter := 1, block := .SVC_BLOCK_MISSING, state := .SVC_READY_STATE }
      _ w' _ (once_ready_disabled c' _ w' rfl (hd _ rfl)) (by simp)
    have e2 := service_step_rest_eq c'
      { svc with restart_counter := 1, block := .SVC_BLOCK_MISSING, state := .SVC_HALTED_STATE }
      _ w' _ (once_halted_disabled c' _ w' rfl (hd _ rfl)) rfl
    exact e1.trans e2

theorem missing_command_witness :
    service_step calm_missing flaky quiet
      = ({ flaky with restart_counter := 1, block := .SVC_BLOCK_MISSING,
                      state := .SVC_READY_STATE },
         { quiet with starts := quiet.starts + 1 }) ∧
    ∀ (c' : ctx) (w' : world),
      service_step c'
          { flaky with restart_counter := 1, block := .SVC_BLOCK_MISSING,
                       state := .SVC_READY_STATE } w'
        = ({ flaky with restart_counter := 0, block := .SVC_BLOCK_MISSING,
                        state := .SVC_HALTED_STATE }, w') :=
  missing_command calm_missing flaky quiet rfl (by decide) rfl rfl rfl

/-! ## Rejected runlevel changes -/

theorem service_step_all_levels (env : env_t) (types : Nat) (s : finit_t) :
    (service_step_all env types s).runlevel = s.runlevel ∧
    (service_step_all env types s).prevlevel = s.prevlevel := ⟨rfl, rfl⟩

theorem service_runlevel_finish_levels (env : env_t) (s : finit_t) :
    (service_runlevel_finish env s).runlevel = s.runlevel ∧
    (service_runlevel_finish env s).prevlevel = s.prevlevel := by
  unfold service_runlevel_finish
  simp only
  split
  · exact ⟨rfl, rfl⟩
  · split
    · exact ⟨rfl, rfl⟩
    · split <;> exact ⟨rfl, rfl⟩

/-- C20 (`service_runlevel` rejects a no-op or invalid target): when newlevel
equals the current runlevel, or is below 0, or above 9, the call changes
nothing at all: runlevel, prevlevel, the teardown flags, every record and the
trace (no hook, no signal, no fork) are as before; otherwise, on return,
runlevel is newlevel and prevlevel is the runlevel before the call. -/
theorem runlevel_reject (env : env_t) (s : finit_t) (newlevel : Int) :
    (newlevel = s.runlevel ∨ newlevel < 0 ∨ newlevel > 9 →
      service_runlevel env newlevel s = s) ∧
    (newlevel ≠ s.runlevel → 0 ≤ newlevel → newlevel ≤ 9 →
      (service_runlevel env newlevel s).runlevel = newlevel ∧
      (service_runlevel env newlevel s).prevlevel = s.runlevel) := by
  refine ⟨?_, ?_⟩
  · intro h
    unfold service_runlevel
    by_cases h1 : s.runlevel = newlevel
    · simp [h1]
    · have h2 : newlevel < 0 ∨ newlevel > 9 := by
        rcases h with h | h
        · exact absurd h.symm h1
        · exact h
      simp [h1, h2]
  · intro h1 hlo hhi
    have h1' : ¬ s.runlevel = newlevel := fun h => h1 h.symm
    have h2 : ¬ (newlevel < 0 ∨ newlevel > 9) := by omega
    have ht : (service_runlevel_teardown env newlevel s).runlevel = newlevel ∧
        (service_runlevel_teardown env newlevel s).prevlevel = s.runlevel := ⟨rfl, rfl⟩
    unfold service_runlevel
    by_cases hd : service_stop_is_done (service_runlevel_teardown env newlevel s) = true
    · simp only [h1', h2, hd, if_false, Bool.not_true, Bool.false_eq_true]
      have := service_runlevel_finish_levels env (service_runlevel_teardown env newlevel s)
      exact ⟨this.1.trans ht.1, this.2.trans ht.2⟩
    · simp only [h1', h2, hd, if_false, Bool.not_false, if_true]
      exact ht

theorem runlevel_reject_witness :
    (service_runlevel plain 3 level3 = level3 ∧ service_runlevel plain 10 level3 = level3 ∧
      service_runlevel plain (-1) level3 = level3) ∧
    ((service_runlevel plain 2 level3).runlevel = 2 ∧
      (service_runlevel plain 2 level3).prevlevel = level3.runlevel) :=
  ⟨⟨(runlevel_reject plain level3 3).1 (Or.inl rfl),
    (runlevel_reject plain level3 10).1 (Or.inr (Or.inr (by decide))),
    (runlevel_reject plain level3 (-1)).1 (Or.inr (Or.inl (by decide)))⟩,
   (runlevel_reject plain level3 2).2 (by decide) (by decide) (by decide)⟩

/-! ## Registration -/

/-- C18 (argument-count overflow is rejected) fails on the code: the copy
loop of `service_register` has no bound.  For a command with 32 arguments the
call returns 0 after writing `args[0]` to `args[33]`, two entries beyond the
table of `MAX_NUM_SVC_ARGS` = 32. -/
theorem args_overflow_accepted :
    (strtok ' ' line_33.data).length = 33 ∧ MAX_NUM_SVC_ARGS = 32 ∧
    (service_register reg_plain .SVC_TYPE_TASK (some line_33) 0 none []).ret = 0 ∧
    (service_register reg_plain .SVC_TYPE_TASK (some line_33) 0 none []).args_written
      = List.range 34 ∧
    ¬ ∀ i ∈ (service_register reg_plain .SVC_TYPE_TASK (some line_33) 0 none []).args_written,
        i < MAX_NUM_SVC_ARGS := by
  decide

/-- C19 (re-registration overwrites) fails on the code: registering
`@joe:staff [2345] /bin/foo -a -b -- Foo daemon` and then `[3] /bin/foo -x`
leaves one record, with the runlevels and the arguments of the second line but
with the user, the group and the description of the first, where the second
line alone gives a record without user, group and description. -/
theorem reregister_keeps_stale_fields :
    reg_both.ret = 0 ∧ reg_alone.ret = 0 ∧
    reg_both.svcs.map (fun svc => (svc.cmd, svc.id)) = [("/bin/foo", 1)] ∧
    reg_alone.svcs.map (fun svc => (svc.cmd, svc.id)) = [("/bin/foo", 1)] ∧
    reg_both.svcs.map (fun svc => svc.runlevels)
      = reg_alone.svcs.map (fun svc => svc.runlevels) ∧
    reg_both.svcs.map (fun svc => svc.args.takeWhile (fun a => a ≠ ""))
      = reg_alone.svcs.map (fun svc => svc.args.takeWhile (fun a => a ≠ "")) ∧
    reg_both.svcs.map (fun svc => (svc.username, svc.group, svc.desc))
      = [("joe", "staff", "Foo daemon")] ∧
    reg_alone.svcs.map (fun svc => (svc.username, svc.group, svc.desc)) = [("", "", "")] := by
  decide

/-! ## Registration errors -/

theorem parse_modifiers_none :
    ∀ (toks : List (List Char)) (d : decl_t),
      (∀ tok ∈ toks, is_modifier tok = true) → parse_modifiers toks d = none := by
  intro toks
  induction toks with
  | nil => intro d _; rfl
  | cons tok rest ih =>
    intro d hall
    have h := hall tok (List.mem_cons_self _ _)
    have hrest : ∀ t ∈ rest, is_modifier t = true :=
      fun t ht => hall t (List.mem_cons_of_mem _ ht)
    unfold is_modifier at h
    unfold parse_modifiers
    split_ifs at h ⊢ <;> exact ih _ hrest

/-- C21 (registration errors are atomic): `service_register` returns `EINVAL`
when the line is NULL, and `ENOENT` when the line holds no command token, that
is when every token before a `"-- "` description is a modifier (it starts with
'@', '[', '<' or ':', is `wait`/`nowait`, or is an inetd service/proto token),
which includes the empty line; in both cases the registry comes back exactly
as it was, no record created and none modified, and no argument is written. -/
theorem register_errors_atomic (env : reg_env_t) (type : svc_type_t) (mtime : Int)
    (username : Option String) (svcs : List svc_t) :
    (service_register env type none mtime username svcs).ret = EINVAL ∧
    (service_register env type none mtime username svcs).svcs = svcs ∧
    (service_register env type none mtime username svcs).args_written = [] ∧
    (∀ line : String,
      (∀ tok ∈ strtok ' ' (split_desc line.data).1, is_modifier tok = true) →
      (service_register env type (some line) mtime username svcs).ret = ENOENT ∧
      (service_register env type (some line) mtime username svcs).svcs = svcs ∧
      (service_register env type (some line) mtime username svcs).args_written = []) ∧
    EINVAL ≠ 0 ∧ ENOENT ≠ 0 := by
  refine ⟨rfl, rfl, rfl, ?_, by decide, by decide⟩
  intro line hall
  have h := parse_modifiers_none (strtok ' ' (split_desc line.data).1)
    { username := username.map String.data, runlevels := none, cond := none, id := 1,
      forking := false, service := none } hall
  simp [service_register, h]

theorem register_errors_atomic_witness :
    (∀ tok ∈ strtok ' ' (split_desc line_modifiers.data).1, is_modifier tok = true) ∧
    (service_register reg_plain .SVC_TYPE_TASK (some line_modifiers) 0 none reg_both.svcs).ret
      = ENOENT ∧
    (service_register reg_plain .SVC_TYPE_TASK (some line_modifiers) 0 none reg_both.svcs).svcs
      = reg_both.svcs ∧
    (service_register reg_plain .SVC_TYPE_TASK (some "") 0 none reg_both.svcs).ret = ENOENT ∧
    (service_register reg_plain .SVC_TYPE_TASK (some "") 0 none reg_both.svcs).svcs
      = reg_both.svcs :=
  ⟨by decide,
   ((register_errors_atomic reg_plain .SVC_TYPE_TASK 0 none reg_both.svcs).2.2.2.1
      line_modifiers (by decide)).1,
   ((register_errors_atomic reg_plain .SVC_TYPE_TASK 0 none reg_both.svcs).2.2.2.1
      line_modifiers (by decide)).2.1,
   ((register_errors_atomic reg_plain .SVC_TYPE_TASK 0 none reg_both.svcs).2.2.2.1
      "" (by decide)).1,
   ((register_errors_atomic reg_plain .SVC_TYPE_TASK 0 none reg_both.svcs).2.2.2.1
      "" (by decide)).2.1⟩

/-! ## Termination, counted in passes -/

theorem service_step_fuel_passes (c : ctx) :
    ∀ (n : Nat) (svc : svc_t) (w : world), step_rank c svc < n →
      ∃ k, k < n ∧ pass_runs c (svc, w) k ∧
        (passes c (k + 1) (svc, w)).1.state = (passes c k (svc, w)).1.state ∧
        service_step_fuel n c svc w = some (passes c (k + 1) (svc, w)) := by
  intro n
  induction n with
  | zero => intro svc w h; omega
  | succ n ih =>
    intro svc w h
    by_cases hst : (service_step_once c svc w).1.state ≠ svc.state
    · have hr := step_rank_decreases c svc w hst
      obtain ⟨k, hk, hruns, hrest, hfuel⟩ :=
        ih (service_step_once c svc w).1 (service_step_once c svc w).2 (by omega)
      refine ⟨k + 1, by omega, pass_runs_succ c svc w k hst hruns, hrest, ?_⟩
      rw [service_step_fuel_step _ _ _ _ hst]
      exact hfuel
    · refine ⟨0, by omega, fun j hj => absurd hj (Nat.not_lt_zero j), not_not.mp hst, ?_⟩
      exact service_step_fuel_stop _ _ _ _ (not_not.mp hst)

/-- C22 (`service_step` terminates): for every record and every context that
stays as it is during the call, the restart loop makes at most six passes,
whatever the record: there is a pass number k < 6 such that every pass before
it changed the state, pass k leaves the state alone, and `service_step`
returns what that pass produced. -/
theorem service_step_terminates (c : ctx) (svc : svc_t) (w : world) :
    ∃ k, k < 6 ∧ pass_runs c (svc, w) k ∧
      (passes c (k + 1) (svc, w)).1.state = (passes c k (svc, w)).1.state ∧
      service_step_fuel 6 c svc w = some (passes c (k + 1) (svc, w)) ∧
      service_step c svc w = passes c (k + 1) (svc, w) := by
  obtain ⟨k, hk, hruns, hrest, hfuel⟩ :=
    service_step_fuel_passes c 6 svc w (by have := step_rank_le c svc; omega)
  exact ⟨k, hk, hruns, hrest, hfuel, service_step_of_fuel c svc w _ hfuel⟩

/-! ## A healthy service -/

/-- C24 (a healthy service is left alone by a sweep): for every Running record
that is enabled, has pid > 1, aggregate condition on and `dirty == 0`,
`service_step` returns the record and the world as they were: no signal, no
fork, and every field (state, pid, restart_counter, dirty, block and the
rest) unchanged. -/
theorem healthy_untouched (c : ctx) (svc : svc_t) (w : world)
    (hs : svc.state = .SVC_RUNNING_STATE) (he : service_enabled c svc = true)
    (hp : 1 < svc.pid) (hc : c.cond_get_agg svc.cond = .COND_ON) (hd : svc.dirty = 0) :
    service_step c svc w = (svc, w) :=
  service_step_rest_eq c svc svc w w
    (once_running_stable c svc w hs he (by omega) hc hd) rfl

theorem healthy_untouched_witness :
    service_step calm syslogd_running quiet = (syslogd_running, quiet) :=
  healthy_untouched calm syslogd_running quiet rfl (by decide) (by decide) rfl rfl

/-! ## Leaving Waiting -/

theorem once_ready_idle (c : ctx) (svc : svc_t) (w : world)
    (hs : svc.state = .SVC_READY_STATE) (he : service_enabled c svc = true)
    (hc : c.cond_get_agg svc.cond ≠ .COND_ON) :
    service_step_once c svc w = (svc, w) := by
  simp [service_step_once, hs, he, hc]

/-- C23 (Waiting transitions): for every Waiting, enabled record with pid > 1
and `dirty == 0`, `service_step` (a) with aggregate condition on sends
`SIGCONT` to the pid and nothing else, and returns in Running with every other
field as it was; (b) with the condition off sends `SIGCONT`, then calls
`service_stop` (which sends `SIGTERM` for type Service), and returns in Ready
with every other field as it was; (c) with the condition in flux returns the
record and the world unchanged. -/
theorem waiting_transitions (c : ctx) (svc : svc_t) (w : world)
    (hs : svc.state = .SVC_WAITING_STATE) (he : service_enabled c svc = true)
    (hp : 1 < svc.pid) (hd : svc.dirty = 0) :
    (c.cond_get_agg svc.cond = .COND_ON →
      service_step c svc w
        = ({ svc with state := .SVC_RUNNING_STATE },
           { w with trace := w.trace ++ [event.kill svc.pid .SIGCONT] })) ∧
    (c.cond_get_agg svc.cond = .COND_OFF →
      service_step c svc w
        = ({ svc with state := .SVC_READY_STATE },
           (service_stop c svc (send_kill svc .SIGCONT w)).2.1) ∧
      (svc.type = .SVC_TYPE_SERVICE →
        (service_stop c svc (send_kill svc .SIGCONT w)).2.1
          = { w with trace := w.trace ++ [event.kill svc.pid .SIGCONT,
                                           event.kill svc.pid .SIGTERM] }) ∧
      (svc.type ≠ .SVC_TYPE_SERVICE →
        (service_stop c svc (send_kill svc .SIGCONT w)).2.1
          = { w with trace := w.trace ++ [event.kill svc.pid .SIGCONT] })) ∧
    (c.cond_get_agg svc.cond = .COND_FLUX → service_step c svc w = (svc, w)) := by
  have hp0 : svc.pid ≠ 0 := by omega
  have hp1 : ¬ svc.pid ≤ 1 := by omega
  refine ⟨?_, ?_, ?_⟩
  · intro hc
    have e1 := service_step_next_eq c svc { svc with state := .SVC_RUNNING_STATE } w
      { w with trace := w.trace ++ [event.kill svc.pid .SIGCONT] }
      (by simp [service_step_once, hs, he, hp0, hc, send_kill]) (by simp [hs])
    have e2 := service_step_rest_eq c { svc with state := .SVC_RUNNING_STATE } _
      { w with trace := w.trace ++ [event.kill svc.pid .SIGCONT] } _
      (once_running_stable c _ _ rfl he hp0 hc hd) rfl
    exact e1.trans e2
  · intro hc
    refine ⟨?_, ?_, ?_⟩
    · have e1 := service_step_next_eq c svc { svc with state := .SVC_READY_STATE } w
        (service_stop c svc (send_kill svc .SIGCONT w)).2.1
        (by simp [service_step_once, hs, he, hp0, hc, service_stop_fst]) (by simp [hs])
      have e2 := service_step_rest_eq c { svc with state := .SVC_READY_STATE } _
        (service_stop c svc (send_kill svc .SIGCONT w)).2.1 _
        (once_ready_idle c _ _ rfl he (by simp [hc])) rfl
      exact e1.trans e2
    · intro ht
      simp [service_stop, send_kill, hp1, ht]
    · intro ht
      simp [service_stop, send_kill, hp1, ht]
  · intro hc
    exact service_step_rest_eq c svc svc w w (once_waiting_flux c svc w hs he hp0 hc) rfl

theorem waiting_transitions_witness :
    service_step calm syslogd_waiting quiet
        = ({ syslogd_waiting with state := .SVC_RUNNING_STATE },
           { quiet with trace := quiet.trace ++ [event.kill syslogd_waiting.pid .SIGCONT] }) ∧
    (service_step calm_off syslogd_waiting quiet
        = ({ syslogd_waiting with state := .SVC_READY_STATE },
           (service_stop calm_off syslogd_waiting (send_kill syslogd_waiting .SIGCONT quiet)).2.1) ∧
      (service_stop calm_off syslogd_waiting (send_kill syslogd_waiting .SIGCONT quiet)).2.1
        = { quiet with trace := quiet.trace ++ [event.kill syslogd_waiting.pid .SIGCONT,
                                                 event.kill syslogd_waiting.pid .SIGTERM] }) ∧
    service_step calm_flux syslogd_waiting quiet = (syslogd_waiting, quiet) :=
  ⟨(waiting_transitions calm syslogd_waiting quiet rfl (by decide) (by decide) rfl).1 rfl,
   ⟨((waiting_transitions calm_off syslogd_waiting quiet rfl (by decide) (by decide) rfl).2.1
        rfl).1,
    ((waiting_transitions calm_off syslogd_waiting quiet rfl (by decide) (by decide) rfl).2.1
        rfl).2.1 rfl⟩,
   (waiting_transitions calm_flux syslogd_waiting quiet rfl (by decide) (by decide) rfl).2.2
      rfl⟩

/-! ## Who writes `block` -/

theorem service_start_block (c : ctx) (s : svc_t) (v : world) :
    (service_start c s v).1.block = s.block ∨
    (c.fexist s.cmd = false ∧ s.inetd_cmd = false ∧
      (service_start c s v).1.block = .SVC_BLOCK_MISSING) := by
  unfold service_start
  simp only
  by_cases hm : (!c.fexist s.cmd && !s.inetd_cmd) = true
  · rw [if_pos hm]
    right
    simp at hm
    exact ⟨hm.1, hm.2, rfl⟩
  · rw [if_neg hm]
    left
    split
    · rfl
    · split
      · rfl
      · split <;> rfl

theorem service_restart_block (c : ctx) (s : svc_t) (v : world) :
    (service_restart c s v).1.block = s.block := by
  unfold service_restart
  split
  · rfl
  · split
    · rfl
    · split <;> rfl

theorem once_ready_start_block (c : ctx) (s : svc_t) (v : world)
    (hs : s.state = .SVC_READY_STATE) (he : service_enabled c s = true)
    (hc : c.cond_get_agg s.cond = .COND_ON) (hr : s.restart_counter < RESPAWN_MAX) :
    (service_step_once c s v).1.block = (service_start c s v).1.block := by
  have hr2 : ¬ RESPAWN_MAX ≤ s.restart_counter := by omega
  simp only [service_step_once, hs, he, hc, ge_iff_le, hr2, Bool.not_true, if_true, if_false,
    Bool.false_eq_true]
  split
  · rfl
  · split <;> rfl

/-- One pass of the `switch` writes `block` in two places only, and both find
it at `None`. -/
theorem once_block (c : ctx) (s : svc_t) (v : world) :
    (service_step_once c s v).1.block = s.block ∨
    (s.block = .SVC_BLOCK_NONE ∧ s.state = .SVC_READY_STATE ∧
      RESPAWN_MAX ≤ s.restart_counter ∧
      (service_step_once c s v).1.block = .SVC_BLOCK_CRASHING) ∨
    (s.block = .SVC_BLOCK_NONE ∧ s.state = .SVC_READY_STATE ∧
      s.restart_counter < RESPAWN_MAX ∧ c.fexist s.cmd = false ∧ s.inetd_cmd = false ∧
      (service_start c s v).1.block = .SVC_BLOCK_MISSING ∧
      (service_step_once c s v).1.block = .SVC_BLOCK_MISSING) := by
  by_cases hst : s.state = .SVC_READY_STATE
  · by_cases he : service_enabled c s = true
    swap
    · left
      simp [service_step_once, hst, he]
    have hb : s.block = .SVC_BLOCK_NONE := by
      have h := he
      rw [service_enabled_eq] at h
      simp only [Bool.and_eq_true, decide_eq_true_eq] at h
      exact h.2
    by_cases hc : c.cond_get_agg s.cond = .COND_ON
    swap
    · left
      simp [service_step_once, hst, he, hc]
    by_cases hr : RESPAWN_MAX ≤ s.restart_counter
    · right; left
      refine ⟨hb, hst, hr, ?_⟩
      simp [service_step_once, hst, he, hc, hr]
    · have hr2 : s.restart_counter < RESPAWN_MAX := by omega
      have e := once_ready_start_block c s v hst he hc hr2
      rcases service_start_block c s v with h | ⟨h1, h2, h3⟩
      · left; rw [e, h]
      · right; right
        exact ⟨hb, hst, hr2, h1, h2, h3, by rw [e, h3]⟩
  · left
    rcases hs : s.state with _ | _ | _ | _ | _ | _ | _ <;>
    simp only [hs, service_step_once, service_stop_fst, service_enabled_eq] at hst ⊢
    · split <;> rfl
    · simp at hst
    · by_cases hrl : ISSET s.runlevels c.runlevel = true <;>
      by_cases hb : s.block = .SVC_BLOCK_NONE <;>
      by_cases hp : s.pid = 0 <;>
      by_cases hh : s.sighup = true <;>
      by_cases hd : s.dirty = 0 <;>
      rcases hc : c.cond_get_agg s.cond with _ | _ | _ <;>
      simp [hrl, hb, hp, hc, hh, hd, cond_state.toNat, svc_is_changed, service_restart_block]
    · split <;> rfl
    · by_cases hrl : ISSET s.runlevels c.runlevel = true <;>
      by_cases hb : s.block = .SVC_BLOCK_NONE <;>
      by_cases hp : s.pid = 0 <;>
      rcases hc : c.cond_get_agg s.cond with _ | _ | _ <;>
      simp [hrl, hb, hp, hc]
    · split <;> rfl

/-- C25 (the state machine never clears `block`): for every record whose
`block` is not `None` before the call, `service_step` leaves `block` as it
was, whatever the state, the condition and the pid; in general `block` after a
step is either what it was or it went from `None` to `Crashing` or to
`Missing`; and a single pass of the `switch` changes it only from `None` to
`Crashing` (Ready with `restart_counter >= RESPAWN_MAX`) or from `None` to
`Missing` (Ready, `service_start` on a command that does not exist). -/
theorem block_never_cleared (c : ctx) (svc : svc_t) (w : world) :
    (svc.block ≠ .SVC_BLOCK_NONE → (service_step c svc w).1.block = svc.block) ∧
    ((service_step c svc w).1.block = svc.block ∨
      (svc.block = .SVC_BLOCK_NONE ∧
        ((service_step c svc w).1.block = .SVC_BLOCK_CRASHING ∨
         (service_step c svc w).1.block = .SVC_BLOCK_MISSING))) ∧
    (∀ (s : svc_t) (v : world),
      (service_step_once c s v).1.block = s.block ∨
      (s.block = .SVC_BLOCK_NONE ∧ s.state = .SVC_READY_STATE ∧
        RESPAWN_MAX ≤ s.restart_counter ∧
        (service_step_once c s v).1.block = .SVC_BLOCK_CRASHING) ∨
      (s.block = .SVC_BLOCK_NONE ∧ s.state = .SVC_READY_STATE ∧
        s.restart_counter < RESPAWN_MAX ∧ c.fexist s.cmd = false ∧ s.inetd_cmd = false ∧
        (service_start c s v).1.block = .SVC_BLOCK_MISSING ∧
        (service_step_once c s v).1.block = .SVC_BLOCK_MISSING)) := by
  have key : (service_step c svc w).1.block = svc.block ∨
      (svc.block = .SVC_BLOCK_NONE ∧
        ((service_step c svc w).1.block = .SVC_BLOCK_CRASHING ∨
         (service_step c svc w).1.block = .SVC_BLOCK_MISSING)) := by
    refine service_step_inv c
      (fun s _ => s.block = svc.block ∨
        (svc.block = .SVC_BLOCK_NONE ∧
          (s.block = .SVC_BLOCK_CRASHING ∨ s.block = .SVC_BLOCK_MISSING)))
      ?_ svc w (Or.inl rfl)
    intro s v hP
    rcases once_block c s v with h | ⟨hb, _, _, h⟩ | ⟨hb, _, _, _, _, _, h⟩
    · rw [h]; exact hP
    · rcases hP with hP | ⟨_, hP | hP⟩
      · exact Or.inr ⟨hP.symm.trans hb, Or.inl h⟩
      · rw [hb] at hP; cases hP
      · rw [hb] at hP; cases hP
    · rcases hP with hP | ⟨_, hP | hP⟩
      · exact Or.inr ⟨hP.symm.trans hb, Or.inr h⟩
      · rw [hb] at hP; cases hP
      · rw [hb] at hP; cases hP
  refine ⟨?_, key, once_block c⟩
  intro hb
  rcases key with h | ⟨h, _⟩
  · exact h
  · exact absurd h hb

theorem block_never_cleared_witness :
    flaky_blocked.block ≠ .SVC_BLOCK_NONE ∧
    (service_step calm flaky_blocked quiet).1.block = flaky_blocked.block :=
  ⟨by decide, (block_never_cleared calm flaky_blocked quiet).1 (by decide)⟩

/-! ## One start per step -/

theorem step_rank_zero_not_ready (c : ctx) (s : svc_t) (h : step_rank c s = 0) :
    s.state ≠ .SVC_READY_STATE := by
  intro hs
  simp [step_rank, hs] at h

/-- C26 (at most one fork per step): for every record and every context that
stays as it is during the call, a single `service_step` calls `service_start`
at most once (the count of calls goes up by zero or one), so it forks at most
once: one step never launches two processes for the same record. -/
theorem one_start_per_step (c : ctx) (svc : svc_t) (w : world) :
    ((service_step c svc w).2.starts = w.starts ∧
      fork_count (service_step c svc w).2.trace = fork_count w.trace) ∨
    ((service_step c svc w).2.starts = w.starts + 1 ∧
      (fork_count (service_step c svc w).2.trace = fork_count w.trace ∨
       fork_count (service_step c svc w).2.trace = fork_count w.trace + 1)) := by
  obtain ⟨s, v, hP, he, _⟩ := service_step_last c
    (fun s v => (v.starts = w.starts ∧ fork_count v.trace = fork_count w.trace) ∨
      (v.starts = w.starts + 1 ∧
        (fork_count v.trace = fork_count w.trace ∨
         fork_count v.trace = fork_count w.trace + 1) ∧ step_rank c s = 0))
    (by
      intro s v hP hst
      have hr := step_rank_decreases c s v hst
      rcases hP with ⟨h1, h2⟩ | ⟨_, _, h3⟩
      · rcases once_world c s v with ⟨e1, e2⟩ | ⟨hs, _, _, _, e1, e2⟩
        · exact Or.inl ⟨e1.trans h1, e2.trans h2⟩
        · right
          have h0 : step_rank c s = 1 := by simp [step_rank, hs]
          refine ⟨by omega, by omega, by omega⟩
      · omega)
    svc w (Or.inl ⟨rfl, rfl⟩)
  rw [← he]
  rcases hP with ⟨h1, h2⟩ | ⟨h1, h2, h3⟩
  · rcases once_world c s v with ⟨e1, e2⟩ | ⟨_, _, _, _, e1, e2⟩
    · exact Or.inl ⟨e1.trans h1, e2.trans h2⟩
    · exact Or.inr ⟨by omega, by omega⟩
  · rcases once_world c s v with ⟨e1, e2⟩ | ⟨hs, _⟩
    · exact Or.inr ⟨by omega, by omega⟩
    · exact absurd hs (step_rank_zero_not_ready c s h3)

/-! ## The state/pid relation, whatever the entry state -/

theorem pid_inv_once_ready (Hp : Int → Prop) (hz : Hp 0) (w0 : world) (c : ctx) (s : svc_t)
    (v : world) (hst : s.state = .SVC_READY_STATE) (h : pid_inv Hp w0 c s v) :
    pid_inv Hp w0 c (service_step_once c s v).1 (service_step_once c s v).2 := by
  obtain ⟨hty, h1, h2, h3, h4⟩ := h
  have hp : Hp s.pid := h1 (Or.inr (Or.inl hst))
  unfold pid_inv
  simp only [service_step_once, hst, service_enabled_eq]
  by_cases hrl : ISSET s.runlevels c.runlevel = true
  swap
  · simp [hrl, hty, hp, h4]
  by_cases hb : s.block = .SVC_BLOCK_NONE
  swap
  · simp [hrl, hb, hty, hp, h4]
  by_cases hc : c.cond_get_agg s.cond = .COND_ON
  swap
  · simp [hrl, hb, hc, hst, hty, hp, h4]
  by_cases hr : RESPAWN_MAX ≤ s.restart_counter
  · simp [hrl, hb, hc, hr, hty, hp, h4]
  simp only [hrl, hb, hc, hr, ge_iff_le]
  rcases service_start_cases c s v with e | e | e
  · simp [e, hst, hty, hp]; omega
  · simp [e, hst, hty, hp]; omega
  · by_cases hf : (c.start v.starts).fork_pid = 0
    · simp [e, hst, hf, hty, hz]; omega
    · rcases ht : s.type with _ | _ | _ | _ | _
      · exact absurd ht hty
      all_goals simp [e, hst, hf, ht, hrl, hb, hc]
      all_goals omega

theorem pid_inv_once_running (Hp : Int → Prop) (hz : Hp 0) (w0 : world) (c : ctx) (s : svc_t)
    (v : world) (hst : s.state = .SVC_RUNNING_STATE) (h : pid_inv Hp w0 c s v) :
    pid_inv Hp w0 c (service_step_once c s v).1 (service_step_once c s v).2 := by
  obtain ⟨hty, h1, h2, h3, h4⟩ := h
  rcases h3 hst with ⟨a, b, c1, d⟩ | hp
  · rw [once_running_stable c s v hst a b c1 d]
    exact ⟨hty, h1, h2, fun _ => Or.inl ⟨a, b, c1, d⟩, h4⟩
  · have hw : w0.starts ≤ (service_step_once c s v).2.starts := by
      rcases once_world c s v with ⟨e, _⟩ | ⟨_, _, _, _, e, _⟩ <;> omega
    refine ⟨?_, ?_, ?_, ?_, hw⟩
    all_goals simp only [service_step_once, hst, service_stop_fst, service_enabled_eq]
    all_goals
      by_cases hrl : ISSET s.runlevels c.runlevel = true <;>
      by_cases hb : s.block = .SVC_BLOCK_NONE <;>
      by_cases h0 : s.pid = 0 <;>
      by_cases hh : s.sighup = true <;>
      by_cases hd : s.dirty = 0 <;>
      rcases hc : c.cond_get_agg s.cond with _ | _ | _ <;>
      simp [hrl, hb, h0, hc, hh, hd, hty, hp, hst, cond_state.toNat, svc_is_changed]
    all_goals
      rcases service_restart_fst c s v with e | e <;> simp [e, hty, hp, hz, hst]

theorem pid_inv_once_other (Hp : Int → Prop) (hz : Hp 0) (w0 : world) (c : ctx) (s : svc_t)
    (v : world) (hst : s.state ≠ .SVC_READY_STATE) (hst2 : s.state ≠ .SVC_RUNNING_STATE)
    (h : pid_inv Hp w0 c s v) :
    pid_inv Hp w0 c (service_step_once c s v).1 (service_step_once c s v).2 := by
  obtain ⟨hty, h1, h2, h3, h4⟩ := h
  unfold pid_inv
  rcases hs : s.state with _ | _ | _ | _ | _ | _ | _ <;>
  simp only [hs, service_step_once, service_stop_fst, service_enabled_eq] at h1 h2 h3 hst hst2 ⊢ <;>
  simp at h1 h2 h3 hst hst2 ⊢
  · -- halted
    by_cases hrl : ISSET s.runlevels c.runlevel = true <;>
      by_cases hb : s.block = .SVC_BLOCK_NONE <;> simp [hrl, hb, hty, h1, h4]
  · -- stopping
    by_cases hp : s.pid = 0
    · simp [hp, hty, h4, hs, hz]
    · simp [hp, hty, h4, hs]
  · -- waiting
    by_cases hrl : ISSET s.runlevels c.runlevel = true <;>
      by_cases hb : s.block = .SVC_BLOCK_NONE <;>
      by_cases hp : s.pid = 0 <;>
      rcases hc : c.cond_get_agg s.cond with _ | _ | _ <;>
      simp [hrl, hb, hp, hc, hty, h1, h4, hs, hz, send_kill, service_stop_starts]
  · -- paused
    simp [hs, hty, h4]
  · -- done
    by_cases hd : s.dirty = 0 <;> simp [hd, hty, h4, hs, svc_is_changed]
    · rcases h2 with h2 | h2
      · exact Or.inl h2
      · exact Or.inr h2.2
    · rcases h2 with h2 | h2
      · rw [h2]; exact hz
      · exact absurd h2.1 hd

theorem pid_inv_once (Hp : Int → Prop) (hz : Hp 0) (w0 : world) (c : ctx) (s : svc_t)
    (v : world) (h : pid_inv Hp w0 c s v) :
    pid_inv Hp w0 c (service_step_once c s v).1 (service_step_once c s v).2 := by
  by_cases hst : s.state = .SVC_READY_STATE
  · exact pid_inv_once_ready Hp hz w0 c s v hst h
  · by_cases hst2 : s.state = .SVC_RUNNING_STATE
    · exact pid_inv_once_running Hp hz w0 c s v hst2 h
    · exact pid_inv_once_other Hp hz w0 c s v hst hst2 h

/-- C3 (state/pid invariant 2), amended: for every record in use that
satisfies the state/pid relation before the call, after `service_step`
returns, Halted or Ready imply that pid is 0, or that the record entered the
call in Running or Waiting and still holds the pid it entered with; Done
implies that pid is 0 or that this very call started the record.  In
particular, for a record that enters neither in Running nor in Waiting with a
pid, Halted or Ready imply pid == 0, and Done implies pid == 0 unless this
very call started the record. -/
theorem state_pid_rest (c : ctx) (svc : svc_t) (w : world)
    (hty : svc.type ≠ .SVC_TYPE_FREE) (hok : state_pid_ok svc) :
    ((service_step c svc w).1.state = .SVC_HALTED_STATE ∨
      (service_step c svc w).1.state = .SVC_READY_STATE →
      (service_step c svc w).1.pid = 0 ∨
      ((svc.state = .SVC_RUNNING_STATE ∨ svc.state = .SVC_WAITING_STATE) ∧
        (service_step c svc w).1.pid = svc.pid)) ∧
    ((service_step c svc w).1.state = .SVC_DONE_STATE →
      (service_step c svc w).1.pid = 0 ∨ w.starts < (service_step c svc w).2.starts) ∧
    (svc.state ≠ .SVC_RUNNING_STATE → (svc.state = .SVC_WAITING_STATE → svc.pid = 0) →
      ((service_step c svc w).1.state = .SVC_HALTED_STATE ∨
        (service_step c svc w).1.state = .SVC_READY_STATE →
        (service_step c svc w).1.pid = 0) ∧
      ((service_step c svc w).1.state = .SVC_DONE_STATE →
        (service_step c svc w).2.starts = w.starts → (service_step c svc w).1.pid = 0)) := by
  have h0 : pid_inv
      (fun p => p = 0 ∨
        ((svc.state = .SVC_RUNNING_STATE ∨ svc.state = .SVC_WAITING_STATE) ∧ p = svc.pid))
      w c svc w := by
    refine ⟨hty, ?_, ?_, ?_, le_refl _⟩
    · rintro (h | h | h)
      · exact Or.inl (hok.2 (Or.inl h))
      · exact Or.inl (hok.2 (Or.inr (Or.inl h)))
      · exact Or.inr ⟨Or.inr h, rfl⟩
    · intro h
      exact Or.inl (hok.2 (Or.inr (Or.inr h)))
    · intro h
      exact Or.inr (Or.inr ⟨Or.inl h, rfl⟩)
  obtain ⟨_, h1, h2, _, _⟩ := service_step_inv c _ (pid_inv_once _ (Or.inl rfl) w c) svc w h0
  have hA : (service_step c svc w).1.state = .SVC_HALTED_STATE ∨
      (service_step c svc w).1.state = .SVC_READY_STATE →
      (service_step c svc w).1.pid = 0 ∨
      ((svc.state = .SVC_RUNNING_STATE ∨ svc.state = .SVC_WAITING_STATE) ∧
        (service_step c svc w).1.pid = svc.pid) := by
    rintro (h | h)
    · exact h1 (Or.inl h)
    · exact h1 (Or.inr (Or.inl h))
  have hB : (service_step c svc w).1.state = .SVC_DONE_STATE →
      (service_step c svc w).1.pid = 0 ∨ w.starts < (service_step c svc w).2.starts := by
    intro h
    rcases h2 h with h3 | h3
    · exact Or.inl h3
    · exact Or.inr h3.2
  refine ⟨hA, hB, ?_⟩
  intro hrun hwait
  refine ⟨?_, ?_⟩
  · intro h
    rcases hA h with h3 | ⟨h3 | h3, h4⟩
    · exact h3
    · exact absurd h3 hrun
    · rw [h4]; exact hwait h3
  · intro h hs
    rcases hB h with h3 | h3
    · exact h3
    · omega

theorem state_pid_rest_witness :
    ((service_step calm_off syslogd_running quiet).1.state = .SVC_HALTED_STATE ∨
      (service_step calm_off syslogd_running quiet).1.state = .SVC_READY_STATE →
      (service_step calm_off syslogd_running quiet).1.pid = 0 ∨
      ((syslogd_running.state = .SVC_RUNNING_STATE ∨
          syslogd_running.state = .SVC_WAITING_STATE) ∧
        (service_step calm_off syslogd_running quiet).1.pid = syslogd_running.pid)) ∧
    ((service_step calm_single job_reaped quiet).1.state = .SVC_DONE_STATE →
      (service_step calm_single job_reaped quiet).1.pid = 0 ∨
      quiet.starts < (service_step calm_single job_reaped quiet).2.starts) ∧
    ((service_step calm_single job_reaped quiet).1.state = .SVC_HALTED_STATE ∨
      (service_step calm_single job_reaped quiet).1.state = .SVC_READY_STATE →
        (service_step calm_single job_reaped quiet).1.pid = 0) :=
  ⟨(state_pid_rest calm_off syslogd_running quiet (by decide) (by decide)).1,
   (state_pid_rest calm_single job_reaped quiet (by decide) (by decide)).2.1,
   ((state_pid_rest calm_single job_reaped quiet (by decide) (by decide)).2.2
      (by decide) (by decide)).1⟩

/-! ## Condition in flux, with and without `SIGHUP` -/

theorem once_running_flux_nohup (c : ctx) (svc : svc_t) (w : world)
    (hs : svc.state = .SVC_RUNNING_STATE) (he : service_enabled c svc = true)
    (hp : svc.pid ≠ 0) (hc : c.cond_get_agg svc.cond = .COND_FLUX) (hh : svc.sighup = false) :
    service_step_once c svc w
      = ({ svc with state := .SVC_READY_STATE }, (service_stop c svc w).2.1) := by
  simp [service_step_once, hs, he, hp, hc, hh, service_stop_fst, cond_state.toNat]

/-- C6 (condition change beats content change), amended: for every Running,
enabled record with a non-zero pid whose aggregate condition is in flux,
whatever `dirty` is: if the record takes `SIGHUP`, `service_step` sends
`SIGSTOP` to the pid and nothing else, starts nothing, and leaves the record
in Waiting with every other field as it was; if it does not, `service_step`
calls `service_stop` and leaves the record in Ready with every other field as
it was, sending no `SIGSTOP` and starting nothing, where `service_stop` sends
`SIGTERM` when the pid is above 1 and the type is Service, and nothing
otherwise. -/
theorem flux_pause (c : ctx) (svc : svc_t) (w : world)
    (hs : svc.state = .SVC_RUNNING_STATE) (he : service_enabled c svc = true)
    (hp : svc.pid ≠ 0) (hc : c.cond_get_agg svc.cond = .COND_FLUX) :
    (svc.sighup = true →
      service_step c svc w
        = ({ svc with state := .SVC_WAITING_STATE },
           { w with trace := w.trace ++ [event.kill svc.pid .SIGSTOP] })) ∧
    (svc.sighup = false →
      service_step c svc w
        = ({ svc with state := .SVC_READY_STATE }, (service_stop c svc w).2.1) ∧
      (1 < svc.pid → svc.type = .SVC_TYPE_SERVICE →
        (service_stop c svc w).2.1
          = { w with trace := w.trace ++ [event.kill svc.pid .SIGTERM] }) ∧
      (svc.pid ≤ 1 ∨ svc.type ≠ .SVC_TYPE_SERVICE → (service_stop c svc w).2.1 = w)) := by
  refine ⟨?_, ?_⟩
  · intro hh
    have e1 := service_step_next_eq c svc _ w _ (once_running_flux c svc w hs he hp hc hh)
      (by simp [hs])
    have e2 := service_step_rest_eq c { svc with state := .SVC_WAITING_STATE } _
      { w with trace := w.trace ++ [event.kill svc.pid .SIGSTOP] } _
      (once_waiting_flux c _ _ rfl he hp hc) rfl
    exact e1.trans e2
  · intro hh
    refine ⟨?_, ?_, ?_⟩
    · have e1 := service_step_next_eq c svc { svc with state := .SVC_READY_STATE } w
        (service_stop c svc w).2.1 (once_running_flux_nohup c svc w hs he hp hc hh)
        (by simp [hs])
      have e2 := service_step_rest_eq c { svc with state := .SVC_READY_STATE } _
        (service_stop c svc w).2.1 _
        (once_ready_idle c _ _ rfl he (by simp [hc])) rfl
      exact e1.trans e2
    · intro h1 ht
      have h2 : ¬ svc.pid ≤ 1 := by omega
      simp [service_stop, h2, ht]
    · rintro (h1 | ht)
      · simp [service_stop, h1]
      · by_cases h1 : svc.pid ≤ 1
        · simp [service_stop, h1]
        · simp [service_stop, h1, ht]

theorem flux_pause_witness :
    service_step calm_flux hup_edited quiet
      = ({ hup_edited with state := .SVC_WAITING_STATE },
         { quiet with trace := quiet.trace ++ [event.kill hup_edited.pid .SIGSTOP] }) ∧
    service_step calm_flux syslogd_running quiet
      = ({ syslogd_running with state := .SVC_READY_STATE },
         (service_stop calm_flux syslogd_running quiet).2.1) ∧
    (service_stop calm_flux syslogd_running quiet).2.1
      = { quiet with trace := quiet.trace ++ [event.kill syslogd_running.pid .SIGTERM] } :=
  ⟨(flux_pause calm_flux hup_edited quiet rfl (by decide) (by decide) rfl).1 rfl,
   ((flux_pause calm_flux syslogd_running quiet rfl (by decide) (by decide) rfl).2 rfl).1,
   ((flux_pause calm_flux syslogd_running quiet rfl (by decide) (by decide) rfl).2 rfl).2.1
      (by decide) rfl⟩

/-! ## Collecting a bootstrap task during a runlevel change -/

/-- C8 (the runlevel-change hooks fire exactly once per runlevel change)
fails on the code.  Leaving bootstrap for runlevel 2 with a bootstrap task
still running leaves that task in Stopping, so the hooks wait and
`in_teardown` is set, with `prevlevel` 0.  When the task is collected,
`service_monitor` hands it to the bootstrap cleaner, which frees it, and
returns at once: after this call no record is in Stopping, yet the hooks have
not run and `in_teardown` is still set.  Where the cleaner leaves the record
alone the same call runs the hooks once and clears `in_teardown`. -/
theorem bootstrap_reap_skips_finish :
    booting.runlevel = 0 ∧ booting.in_teardown = false ∧
    service_stop_is_done (service_runlevel boot_env 2 booting) = false ∧
    (service_runlevel boot_env 2 booting).in_teardown = true ∧
    (service_runlevel boot_env 2 booting).prevlevel = 0 ∧
    hook_count .HOOK_RUNLEVEL_CHANGE (service_runlevel boot_env 2 booting).w.trace = 0 ∧
    svc_find_by_pid (service_runlevel boot_env 2 booting).svcs 77 = some boot_task ∧
    service_stop_is_done
      (service_monitor boot_env 77 (service_runlevel boot_env 2 booting)) = true ∧
    hook_count .HOOK_RUNLEVEL_CHANGE
      (service_monitor boot_env 77 (service_runlevel boot_env 2 booting)).w.trace = 0 ∧
    (service_monitor boot_env 77 (service_runlevel boot_env 2 booting)).in_teardown = true ∧
    hook_count .HOOK_RUNLEVEL_CHANGE
      (service_monitor plain 77 (service_runlevel plain 2 booting)).w.trace = 1 ∧
    (service_monitor plain 77 (service_runlevel plain 2 booting)).in_teardown = false := by
  decide

end Finit
